import Mathlib

/-!
# Storage adapters: listing, stat and segment bookkeeping

A shallow embedding of the `kodo` and `azblob` storagers
(`services/kodo/storager.go`, `services/azblob/storager.go`), of the canonical
object model (`types/struct.go`, `types/metadata`) and of the segment
bookkeeping that `services/qingstor/storager_test.go` exercises.

Conventions of the embedding:

* a Go `error` is a value of `Err`; `nil` is `none`;
* a remote service is a function; where an operation calls it in a loop the
  first argument numbers the calls of that operation (it stands for the state
  of the service, which may answer the same request differently over time);
* what an operation does to the outside world is returned next to its result:
  the arguments of the successive visitor calls and of the successive service
  calls, in order;
* a loop that may run for ever takes a bound on its number of rounds and
  yields `none` when the bound is used up.
-/

/-- The Go type `string` (the storagers have a method `String`, so their
methods name the type of strings by its Go name). -/
abbrev string := String

/-! ## Errors -/

/-- A Go error value: either made by `errors.New`, or made by `fmt.Errorf`
with one `%w` verb, in which case it wraps its cause. -/
inductive Err where
  | new (text : String)
  | errorf (text : String) (cause : Err)
deriving DecidableEq, Repr

namespace Err

/-- The method `Error()`. -/
def Error : Err → String
  | new text => text
  | errorf text _ => text

/-- The chain walk of `errors.Is(err, target)`. -/
def Is : Err → Err → Bool
  | new text, target => decide (new text = target)
  | errorf text cause, target => decide (errorf text cause = target) || Is cause target

end Err

namespace fmt

/-- The call `fmt.Errorf(format, ..., err)` for a format that ends in `: %w`;
`text` is the formatted part up to and including the colon and blank. -/
def Errorf (text : String) (err : Err) : Err :=
  Err.errorf (text ++ err.Error) err

end fmt

/-! ## Package `storageclass` and `types/metadata` -/

namespace storageclass

/-- Modelled from the spec: package `pkg/storageclass` is not among the
sources; the canonical classes are a small closed enumeration. -/
inductive StorageClass where
  | Hot
  | Warm
  | Cold
deriving DecidableEq, Repr

end storageclass

namespace metadata

/-- A value stored in a metadata bag (`interface{}` in the source; the
setters store strings and storage classes). -/
inductive Value where
  | string (v : String)
  | storageClass (v : storageclass.StorageClass)
deriving DecidableEq, Repr

/-- The bag `map[string]interface{}`. -/
abbrev Bag := AList (fun _ : String => Value)

/-- Modelled from the spec: `types/metadata/object_meta.go` is not among the
sources; it is generated by the same generator as `storage_meta.go`: a bag of
optional attributes, every attribute with a presence flag. -/
structure ObjectMeta where
  m : Bag
deriving DecidableEq

def ObjectMetaContentMD5 : String := "content-md5"
def ObjectMetaContentType : String := "content-type"
def ObjectMetaETag : String := "etag"
def ObjectMetaStorageClass : String := "storage-class"

def NewObjectMeta : ObjectMeta := ⟨∅⟩

namespace ObjectMeta

def SetContentMD5 (m : ObjectMeta) (v : String) : ObjectMeta :=
  ⟨m.m.insert ObjectMetaContentMD5 (Value.string v)⟩

def SetContentType (m : ObjectMeta) (v : String) : ObjectMeta :=
  ⟨m.m.insert ObjectMetaContentType (Value.string v)⟩

def SetETag (m : ObjectMeta) (v : String) : ObjectMeta :=
  ⟨m.m.insert ObjectMetaETag (Value.string v)⟩

def SetStorageClass (m : ObjectMeta) (v : storageclass.StorageClass) : ObjectMeta :=
  ⟨m.m.insert ObjectMetaStorageClass (Value.storageClass v)⟩

def GetStorageClass (m : ObjectMeta) : storageclass.StorageClass × Bool :=
  match m.m.lookup ObjectMetaStorageClass with
  | some (Value.storageClass v) => (v, true)
  | _ => (storageclass.StorageClass.Hot, false)

end ObjectMeta

end metadata

/-! ## Package `types` (`types/struct.go`) -/

namespace time

/-- An instant (`time.Time`), as a number. -/
abbrev Time := Int

end time

namespace types

/-- ObjectType is the type for object, under layer type is string. -/
abbrev ObjectType := String

def ObjectTypeFile : ObjectType := "file"
def ObjectTypeStream : ObjectType := "stream"
def ObjectTypeDir : ObjectType := "dir"
def ObjectTypeInvalid : ObjectType := "invalid"

/-- Object may be a file, a dir or a stream. The field `Type` of the source
is `Kind` here (`Type` is reserved). -/
structure Object where
  ID : String := ""
  Name : String := ""
  Kind : ObjectType := ""
  Size : Int := 0
  UpdatedAt : time.Time := 0
  ObjectMeta : metadata.ObjectMeta
deriving DecidableEq

namespace Object

/-- The promoted setter `o.SetContentType(v)`: it writes into the map that
the object holds. -/
def SetContentType (o : Object) (v : String) : Object :=
  { o with ObjectMeta := o.ObjectMeta.SetContentType v }

def SetContentMD5 (o : Object) (v : String) : Object :=
  { o with ObjectMeta := o.ObjectMeta.SetContentMD5 v }

def SetETag (o : Object) (v : String) : Object :=
  { o with ObjectMeta := o.ObjectMeta.SetETag v }

def SetStorageClass (o : Object) (v : storageclass.StorageClass) : Object :=
  { o with ObjectMeta := o.ObjectMeta.SetStorageClass v }

end Object

/-- Pair will store option for storage service. -/
structure Pair where
  Key : String
  Value : metadata.Value
deriving DecidableEq

/-- The variadic argument `pairs ...*types.Pair`. -/
abbrev Pairs := List Pair

/-- Modelled from the spec: `types/error.go` is not among the sources; the
error of the taxonomy for a class identifier outside the mapping table. -/
def ErrStorageClassNotSupported : Err := Err.new "storage class not supported"

end types

/-- What a `List` call did: the error it returned, the objects it handed to
`opt.FileFunc` (one per call, in call order) and the requests it sent to the
service (in order). -/
structure ListRun (Call : Type) where
  err : Option Err
  visited : List types.Object
  calls : List Call
deriving DecidableEq

/-! ## Package `kodo` (`services/kodo/storager.go`) -/

namespace kodo

/-- An entry of a listing page (`qs.ListItem`); `Kind` is its field `Type`,
the storage type. -/
structure ListItem where
  Key : String
  Hash : String := ""
  Fsize : Int := 0
  PutTime : Int := 0
  MimeType : String := ""
  Kind : Int := 0
  EndUser : String := ""
deriving DecidableEq

/-- The answer of `bucket.Stat` (`qs.FileInfo`). -/
structure FileInfo where
  Hash : String := ""
  Fsize : Int := 0
  PutTime : Int := 0
  MimeType : String := ""
  Kind : Int := 0
deriving DecidableEq

/-- The values `bucket.ListFiles` returns when its error is nil. -/
structure ListFilesRet where
  entries : List ListItem
  commonPrefixes : List String := []
  nextMarker : String
  hasNext : Bool := false
deriving DecidableEq

/-- The arguments of one `bucket.ListFiles` call. -/
structure ListFilesCall where
  bucket : String
  pfx : String
  delimiter : String
  marker : String
  limit : Int
deriving DecidableEq

/-- The part of `qs.BucketManager` that the storager calls. -/
structure BucketManager where
  ListFiles : Nat → String → String → String → String → Int → Except Err ListFilesRet
  Stat : String → String → Except Err FileInfo

structure PutPolicy where
  Scope : String

/-- Storage is the kodo service client. -/
structure Storage where
  bucket : BucketManager
  domain : String
  putPolicy : PutPolicy
  name : String
  workDir : String

/-- The options `parseStoragePairList` yields (generated code, not among the
sources). `List` reads `FileFunc` only, and calls it without a test of
`HasFileFunc`: the visitor is taken to be supplied, and a `ListRun` records
its calls. -/
structure pairStorageList where

/-- The functions of package `kodo` that the storager calls and whose source
is not among the files (`utils.go` and the generated option parsers), taken
as parameters; `storageClassTable` is the mapping table of
`formatStorageClass`. -/
structure Helpers where
  getAbsPath : Storage → String → String
  getRelPath : Storage → String → String
  convertUnixTimestampToTime : Int → time.Time
  storageClassTable : Int → Option storageclass.StorageClass
  parseStoragePairList : types.Pairs → Except Err pairStorageList

/-- Modelled from the spec: `formatStorageClass` of `services/kodo/utils.go`
is not among the sources. It normalises a backend class identifier and fails
with `StorageClassNotSupported` when the identifier is outside the mapping
table of the backend. -/
def formatStorageClass (h : Helpers) (t : Int) : Except Err storageclass.StorageClass :=
  match h.storageClassTable t with
  | some c => .ok c
  | none => .error types.ErrStorageClassNotSupported

/-- String implements Storager.String -/
def Storage.String (s : Storage) : string :=
  "Storager kodo \x7bName: " ++ s.name ++ ", WorkDir: " ++ ("/" ++ s.workDir) ++ "\x7d"

/-- The body of the `for _, v := range entries` loop of `List` up to the call
of `opt.FileFunc`: the object built for `v`, or the error `List` returns. -/
def Storage.listObject (h : Helpers) (s : Storage) (path : string) (v : ListItem) :
    Except Err types.Object :=
  let o : types.Object :=
    { Name := h.getRelPath s v.Key
      Kind := types.ObjectTypeDir
      Size := v.Fsize
      UpdatedAt := h.convertUnixTimestampToTime v.PutTime
      ObjectMeta := metadata.NewObjectMeta }
  let o := o.SetContentType v.MimeType
  let o := o.SetETag v.Hash
  match formatStorageClass h v.Kind with
  | .error err => .error (fmt.Errorf (s.String ++ " List [" ++ path ++ "]: ") err)
  | .ok storageClass => .ok (o.SetStorageClass storageClass)

/-- The loop `for _, v := range entries` of `List`: the objects handed to
`opt.FileFunc`, and the error that ended the loop early, if any. -/
def Storage.listEntries (h : Helpers) (s : Storage) (path : string) :
    List ListItem → List types.Object × Option Err
  | [] => ([], none)
  | v :: rest =>
    match s.listObject h path v with
    | .error err => ([], some err)
    | .ok o =>
      let r := Storage.listEntries h s path rest
      (o :: r.1, r.2)

/-- The loop `for { ... }` of `List`, entered for the `n`-th request with the
current `marker`; `fuel` bounds the number of rounds. -/
def Storage.listLoop (h : Helpers) (s : Storage) (path rp : string) :
    Nat → Nat → string → Option (ListRun ListFilesCall)
  | 0, _, _ => none
  | fuel + 1, n, marker =>
    let call : ListFilesCall := ⟨s.name, rp, "", marker, 1000⟩
    match s.bucket.ListFiles n s.name rp "" marker 1000 with
    | .error err => some ⟨some (fmt.Errorf (s.String ++ " List [" ++ path ++ "]: ") err), [], [call]⟩
    | .ok ret =>
      match s.listEntries h path ret.entries with
      | (visited, some err) => some ⟨some err, visited, [call]⟩
      | (visited, none) =>
        let marker := ret.nextMarker
        if marker = "" then some ⟨none, visited, [call]⟩
        else
          (Storage.listLoop h s path rp fuel (n + 1) marker).map
            (fun r => ⟨r.err, visited ++ r.visited, call :: r.calls⟩)

/-- List implements Storager.List -/
def Storage.List (h : Helpers) (s : Storage) (path : string) (pairs : types.Pairs)
    (fuel : Nat) : Option (ListRun ListFilesCall) :=
  match h.parseStoragePairList pairs with
  | .error err => some ⟨some (fmt.Errorf (s.String ++ " List [" ++ path ++ "]: ") err), [], []⟩
  | .ok _ =>
    let marker := ""
    let rp := h.getAbsPath s path
    Storage.listLoop h s path rp fuel 0 marker

/-- Stat implements Storager.Stat -/
def Storage.Stat (h : Helpers) (s : Storage) (path : string) (_pairs : types.Pairs) :
    Option types.Object × Option Err :=
  let rp := h.getAbsPath s path
  match s.bucket.Stat s.name rp with
  | .error err => (none, some (fmt.Errorf (s.String ++ " Stat [" ++ path ++ "]: ") err))
  | .ok fi =>
    let o : types.Object :=
      { ID := rp
        Name := path
        Kind := types.ObjectTypeFile
        Size := fi.Fsize
        UpdatedAt := h.convertUnixTimestampToTime fi.PutTime
        ObjectMeta := metadata.NewObjectMeta }
    let o := o.SetETag fi.Hash
    match formatStorageClass h fi.Kind with
    | .error err => (none, some (fmt.Errorf (s.String ++ " Stat [" ++ path ++ "]: ") err))
    | .ok storageClass => (some (o.SetStorageClass storageClass), none)

end kodo

/-! ## Package `azblob` (`services/azblob/storager.go`) -/

namespace azblob

/-- The type `context.Context` of the options, as a token. -/
abbrev Context := Nat

/-- The continuation marker of the SDK (`azblob.Marker`): a pointer to a
string; the zero value `azblob.Marker{}` holds the nil pointer. -/
structure Marker where
  Val : Option String := none
deriving DecidableEq

/-- The SDK method `NotDone`: true for the zero value and for every marker
whose string is not empty, false only for the marker of a final portion. -/
def Marker.NotDone (m : Marker) : Bool :=
  match m.Val with
  | none => true
  | some v => v != ""

/-- The SDK type `AccessTierType`, a string. -/
abbrev AccessTierType := String

/-- The properties of a listed blob that the storager reads.
`ContentLength` and `ContentType` are pointers in the SDK and the storager
dereferences them; the record holds the values pointed to. `ContentMD5` is a
byte slice, held as the string that the conversion `string(...)` yields. -/
structure BlobProperties where
  LastModified : time.Time := 0
  ContentLength : Int := 0
  ContentType : String := ""
  ContentMD5 : String := ""
  AccessTier : AccessTierType := ""
deriving DecidableEq

/-- An entry of a listing page (`azblob.BlobItem`). -/
structure BlobItem where
  Name : String
  Properties : BlobProperties := {}
deriving DecidableEq

structure BlobFlatListSegment where
  BlobItems : List BlobItem
deriving DecidableEq

/-- The answer of `ListBlobsFlatSegment` when its error is nil. -/
structure ListBlobsFlatSegmentResponse where
  Segment : BlobFlatListSegment
  NextMarker : Marker
deriving DecidableEq

structure ListBlobsSegmentOptions where
  Prefix : String
deriving DecidableEq

/-- The arguments of one `ListBlobsFlatSegment` call. -/
structure ListBlobsCall where
  ctx : Context
  marker : Marker
  o : ListBlobsSegmentOptions
deriving DecidableEq

/-- The answer of `GetProperties` when its error is nil, by the values of
its accessor methods. -/
structure BlobGetPropertiesResponse where
  ContentLength : Int := 0
  LastModified : time.Time := 0
  AccessTier : String := ""
deriving DecidableEq

/-- The part of `azblob.ContainerURL` that the storager calls;
`GetProperties rp ctx` is `NewBlockBlobURL(rp).GetProperties(ctx, ...)`. -/
structure ContainerURL where
  ListBlobsFlatSegment :
    Nat → Context → Marker → ListBlobsSegmentOptions → Except Err ListBlobsFlatSegmentResponse
  GetProperties : String → Context → Except Err BlobGetPropertiesResponse

/-- Storage is the azblob service client. -/
structure Storage where
  bucket : ContainerURL
  name : String
  workDir : String

/-- The options `parseStoragePairList` yields (generated code, not among the
sources). `List` reads `Context` and `FileFunc`, and calls `FileFunc` without
a test of `HasFileFunc`: the visitor is taken to be supplied, and a `ListRun`
records its calls. -/
structure pairStorageList where
  Context : Context := 0

/-- The options `parseStoragePairStat` yields. -/
structure pairStorageStat where
  Context : Context := 0

/-- The functions of package `azblob` that the storager calls and whose
source is not among the files (`utils.go` and the generated option parsers),
taken as parameters; `storageClassTable` is the mapping table of
`formatStorageClass`. -/
structure Helpers where
  getAbsPath : Storage → String → String
  getRelPath : Storage → String → String
  storageClassTable : AccessTierType → Option storageclass.StorageClass
  parseStoragePairList : types.Pairs → Except Err pairStorageList
  parseStoragePairStat : types.Pairs → Except Err pairStorageStat

/-- Modelled from the spec: `formatStorageClass` of `services/azblob/utils.go`
is not among the sources. It normalises a backend class identifier and fails
with `StorageClassNotSupported` when the identifier is outside the mapping
table of the backend. -/
def formatStorageClass (h : Helpers) (t : AccessTierType) :
    Except Err storageclass.StorageClass :=
  match h.storageClassTable t with
  | some c => .ok c
  | none => .error types.ErrStorageClassNotSupported

/-- String implements Storager.String -/
def Storage.String (s : Storage) : string :=
  "Storager azblob \x7bName: " ++ s.name ++ ", WorkDir: " ++ ("/" ++ s.workDir) ++ "\x7d"

/-- The body of the `for _, v := range output.Segment.BlobItems` loop of
`List` up to the call of `opt.FileFunc`: the object built for `v`, or the
error `List` returns. -/
def Storage.listObject (h : Helpers) (s : Storage) (path : string) (v : BlobItem) :
    Except Err types.Object :=
  let o : types.Object :=
    { ID := v.Name
      Name := h.getRelPath s v.Name
      Kind := types.ObjectTypeDir
      Size := v.Properties.ContentLength
      UpdatedAt := v.Properties.LastModified
      ObjectMeta := metadata.NewObjectMeta }
  let o := o.SetContentType v.Properties.ContentType
  let o := o.SetContentMD5 v.Properties.ContentMD5
  match formatStorageClass h v.Properties.AccessTier with
  | .error err => .error (fmt.Errorf (s.String ++ " List [" ++ path ++ "]: ") err)
  | .ok storageClass => .ok (o.SetStorageClass storageClass)

/-- The loop `for _, v := range output.Segment.BlobItems` of `List`: the
objects handed to `opt.FileFunc`, and the error that ended the loop early,
if any. -/
def Storage.listEntries (h : Helpers) (s : Storage) (path : string) :
    List BlobItem → List types.Object × Option Err
  | [] => ([], none)
  | v :: rest =>
    match s.listObject h path v with
    | .error err => ([], some err)
    | .ok o =>
      let r := Storage.listEntries h s path rest
      (o :: r.1, r.2)

/-- The loop `for { ... }` of `List`, entered for the `n`-th request with the
current `marker`; `fuel` bounds the number of rounds. -/
def Storage.listLoop (h : Helpers) (s : Storage) (opt : pairStorageList) (path rp : string) :
    Nat → Nat → Marker → Option (ListRun ListBlobsCall)
  | 0, _, _ => none
  | fuel + 1, n, marker =>
    let call : ListBlobsCall := ⟨opt.Context, marker, ⟨rp⟩⟩
    match s.bucket.ListBlobsFlatSegment n opt.Context marker ⟨rp⟩ with
    | .error err => some ⟨some (fmt.Errorf (s.String ++ " List [" ++ path ++ "]: ") err), [], [call]⟩
    | .ok output =>
      match s.listEntries h path output.Segment.BlobItems with
      | (visited, some err) => some ⟨some err, visited, [call]⟩
      | (visited, none) =>
        let marker := output.NextMarker
        if !marker.NotDone then some ⟨none, visited, [call]⟩
        else
          (Storage.listLoop h s opt path rp fuel (n + 1) marker).map
            (fun r => ⟨r.err, visited ++ r.visited, call :: r.calls⟩)

/-- List implements Storager.List -/
def Storage.List (h : Helpers) (s : Storage) (path : string) (pairs : types.Pairs)
    (fuel : Nat) : Option (ListRun ListBlobsCall) :=
  match h.parseStoragePairList pairs with
  | .error err => some ⟨some (fmt.Errorf (s.String ++ " List [" ++ path ++ "]: ") err), [], []⟩
  | .ok opt =>
    let rp := h.getAbsPath s path
    let marker : Marker := {}
    Storage.listLoop h s opt path rp fuel 0 marker

/-- Stat implements Storager.Stat -/
def Storage.Stat (h : Helpers) (s : Storage) (path : string) (pairs : types.Pairs) :
    Option types.Object × Option Err :=
  match h.parseStoragePairStat pairs with
  | .error err => (none, some (fmt.Errorf (s.String ++ " Stat [" ++ path ++ "]: ") err))
  | .ok opt =>
    let rp := h.getAbsPath s path
    match s.bucket.GetProperties rp opt.Context with
    | .error err => (none, some (fmt.Errorf (s.String ++ " Stat [" ++ path ++ "]: ") err))
    | .ok output =>
      let o : types.Object :=
        { ID := rp
          Name := path
          Kind := types.ObjectTypeFile
          Size := output.ContentLength
          UpdatedAt := output.LastModified
          ObjectMeta := metadata.NewObjectMeta }
      match formatStorageClass h output.AccessTier with
      | .error err => (none, some (fmt.Errorf (s.String ++ " Stat [" ++ path ++ "]: ") err))
      | .ok storageClass => (some (o.SetStorageClass storageClass), none)

end azblob

/-! ## Package `segment` and the segment operations of `qingstor`

`pkg/segment` and `services/qingstor/storager.go` are not among the sources;
`services/qingstor/storager_test.go` declares their names and shapes. The
operations follow the state machine of the specification. -/

namespace segment

/-- Modelled from the spec: `pkg/segment` is not among the sources. A Part is
one uploaded byte range of a Segment, identified by its starting offset. -/
structure Part where
  Offset : Int
  Size : Int
deriving DecidableEq, Repr

/-- The part map `map[int64]*Part`. -/
abbrev Parts := AList (fun _ : Int => Part)

/-- Modelled from the spec: `pkg/segment` is not among the sources. A Segment
is an in-flight multipart upload: `ID` is the upload identifier the backend
issued, `Path` the target path, `Parts` maps a part offset to its Part (a nil
map and an empty map are both the empty map here). -/
structure Segment where
  ID : String
  Path : String
  PartSize : Int := 0
  Parts : Parts := ∅
deriving DecidableEq

/-- Modelled from the spec: `NewSegment(path, id, partSize)` as the test
calls it: a Segment with an empty part set. -/
def NewSegment (path id : String) (partSize : Int) : Segment :=
  { ID := id, Path := path, PartSize := partSize, Parts := ∅ }

/-- Modelled from the spec: operation referenced an unknown or terminated
Segment ID. -/
def ErrSegmentNotInitiated : Err := Err.new "segment not initiated"

/-- Modelled from the spec: completion attempted with no uploaded parts. -/
def ErrSegmentPartsEmpty : Err := Err.new "segment parts are empty"

/-- The order of parts by starting offset. -/
def Part.le (a b : Part) : Prop := a.Offset ≤ b.Offset

instance Part.decidableLe : DecidableRel Part.le :=
  fun a b => inferInstanceAs (Decidable (a.Offset ≤ b.Offset))

instance Part.le_total : IsTotal Part Part.le :=
  ⟨fun a b => Int.le_total a.Offset b.Offset⟩

instance Part.le_trans : IsTrans Part Part.le :=
  ⟨fun _ _ _ hab hbc => Int.le_trans hab hbc⟩

/-- The parts a Segment holds, in the order of the map entries. -/
def Segment.parts (seg : Segment) : List Part :=
  seg.Parts.entries.map (fun e => e.2)

/-- Modelled from the spec: finalization orders the parts ascending by
offset. -/
def Segment.SortedParts (seg : Segment) : List Part :=
  seg.parts.insertionSort Part.le

/-- Every part is filed under its own offset: what `WriteSegment` keeps true
of a part map, since it files `Part{Offset: offset, Size: size}` under
`offset`. -/
def Segment.KeyedByOffset (seg : Segment) : Prop :=
  ∀ e ∈ seg.Parts.entries, e.2.Offset = e.1

instance Segment.decidableKeyedByOffset (seg : Segment) : Decidable seg.KeyedByOffset :=
  inferInstanceAs (Decidable (∀ e ∈ seg.Parts.entries, e.2.Offset = e.1))

end segment

namespace qingstor

/-- The bytes an `io.Reader` yields. -/
abbrev Reader := List Nat

/-- The part upload request: the upload it belongs to and the byte range. -/
structure UploadMultipartInput where
  UploadID : String
  Offset : Int
  Size : Int
  Body : Reader
deriving DecidableEq

/-- The finalize request: the upload and its ordered part list. -/
structure CompleteMultipartUploadInput where
  UploadID : String
  ObjectParts : List segment.Part
deriving DecidableEq

structure AbortMultipartUploadInput where
  UploadID : String
deriving DecidableEq

/-- The methods of the interface `Bucket` that the segment operations call,
by the error they return (`none` is nil); the first argument is the object
key. -/
structure Bucket where
  UploadMultipart : String → UploadMultipartInput → Option Err
  CompleteMultipartUpload : String → CompleteMultipartUploadInput → Option Err
  AbortMultipartUpload : String → AbortMultipartUploadInput → Option Err

/-- A call of a `Bucket` method, with its arguments. -/
inductive Call where
  | UploadMultipart (objectKey : String) (input : UploadMultipartInput)
  | CompleteMultipartUpload (objectKey : String) (input : CompleteMultipartUploadInput)
  | AbortMultipartUpload (objectKey : String) (input : AbortMultipartUploadInput)
deriving DecidableEq

/-- The tracking table `map[string]*segment.Segment`. -/
abbrev Segments := AList (fun _ : String => segment.Segment)

/-- The fields of the qingstor client that the segment operations use. -/
structure Storage where
  bucket : Bucket
  segments : Segments

/-- What a segment operation did: the error it returned, the tracking table
it left and the backend calls it issued. -/
structure Outcome where
  err : Option Err
  segments : Segments
  calls : List Call
deriving DecidableEq

/-- Modelled from the spec: `WriteSegment` of `services/qingstor/storager.go`
is not among the sources. It fails with `SegmentNotInitiated` if `id` is not
in the tracking table; otherwise it issues the part upload for the byte
range and, on success, inserts or overwrites the Part at `offset`. -/
def Storage.WriteSegment (s : Storage) (id : String) (offset size : Int) (r : Reader) :
    Outcome :=
  match s.segments.lookup id with
  | none =>
    ⟨some (fmt.Errorf ("WriteSegment [" ++ id ++ "]: ") segment.ErrSegmentNotInitiated),
      s.segments, []⟩
  | some seg =>
    let input : UploadMultipartInput := ⟨seg.ID, offset, size, r⟩
    match s.bucket.UploadMultipart seg.Path input with
    | some err =>
      ⟨some (fmt.Errorf ("WriteSegment [" ++ id ++ "]: ") err), s.segments,
        [Call.UploadMultipart seg.Path input]⟩
    | none =>
      let written : segment.Segment :=
        { seg with Parts := seg.Parts.insert offset ⟨offset, size⟩ }
      ⟨none, s.segments.insert id written, [Call.UploadMultipart seg.Path input]⟩

/-- Modelled from the spec: `CompleteSegment` of
`services/qingstor/storager.go` is not among the sources. It fails with
`SegmentNotInitiated` if `id` is unknown and with `SegmentPartsEmpty` if the
part map is empty; otherwise it orders the parts ascending by offset, issues
the finalize call with that list and removes the Segment on success; on
backend failure the Segment is left intact. -/
def Storage.CompleteSegment (s : Storage) (id : String) : Outcome :=
  match s.segments.lookup id with
  | none =>
    ⟨some (fmt.Errorf ("CompleteSegment [" ++ id ++ "]: ") segment.ErrSegmentNotInitiated),
      s.segments, []⟩
  | some seg =>
    if seg.Parts.entries.length = 0 then
      ⟨some (fmt.Errorf ("CompleteSegment [" ++ id ++ "]: ") segment.ErrSegmentPartsEmpty),
        s.segments, []⟩
    else
      let input : CompleteMultipartUploadInput := ⟨seg.ID, seg.SortedParts⟩
      match s.bucket.CompleteMultipartUpload seg.Path input with
      | some err =>
        ⟨some (fmt.Errorf ("CompleteSegment [" ++ id ++ "]: ") err), s.segments,
          [Call.CompleteMultipartUpload seg.Path input]⟩
      | none => ⟨none, s.segments.erase id, [Call.CompleteMultipartUpload seg.Path input]⟩

/-- Modelled from the spec: `AbortSegment` of `services/qingstor/storager.go`
is not among the sources. It fails with `SegmentNotInitiated` if `id` is
unknown; otherwise it issues the abort call and unconditionally removes the
Segment from the tracking table. -/
def Storage.AbortSegment (s : Storage) (id : String) : Outcome :=
  match s.segments.lookup id with
  | none =>
    ⟨some (fmt.Errorf ("AbortSegment [" ++ id ++ "]: ") segment.ErrSegmentNotInitiated),
      s.segments, []⟩
  | some seg =>
    let input : AbortMultipartUploadInput := ⟨seg.ID⟩
    match s.bucket.AbortMultipartUpload seg.Path input with
    | some err =>
      ⟨some (fmt.Errorf ("AbortSegment [" ++ id ++ "]: ") err), s.segments.erase id,
        [Call.AbortMultipartUpload seg.Path input]⟩
    | none => ⟨none, s.segments.erase id, [Call.AbortMultipartUpload seg.Path input]⟩

end qingstor

/-! ## Describing a listing run

The pages a service hands out during one `List` call, as the hypotheses of
the listing theorems state them. -/

namespace kodo

/-- The marker `List` holds after the pages `pages`, when it held `marker`
before them. -/
def markerAfter (marker : String) : List ListFilesRet → String
  | [] => marker
  | p :: ps => markerAfter p.nextMarker ps

/-- The requests `List` sends for the pages `pages` when it holds `marker`
before them. -/
def callsFor (s : Storage) (rp : String) : String → List ListFilesRet → List ListFilesCall
  | _, [] => []
  | marker, p :: ps => ⟨s.name, rp, "", marker, 1000⟩ :: callsFor s rp p.nextMarker ps

/-- The service answers the requests of `List`, from the `n`-th request on
and with `marker` as the marker of that request, with the pages `pages` in
turn, every request carrying the marker of the page before it. -/
def Answers (s : Storage) (rp : String) : Nat → String → List ListFilesRet → Prop
  | _, _, [] => True
  | n, marker, p :: ps =>
    s.bucket.ListFiles n s.name rp "" marker 1000 = .ok p ∧
      Answers s rp (n + 1) p.nextMarker ps

/-- All entries of the pages, in the order the service returned them. -/
def allEntries (pages : List ListFilesRet) : List ListItem :=
  pages.flatMap (fun p => p.entries)

/-- The storage type of the entry is in the mapping table. -/
def Helpers.Supported (h : Helpers) (v : ListItem) : Prop :=
  (h.storageClassTable v.Kind).isSome = true

instance Helpers.decidableSupported (h : Helpers) (v : ListItem) : Decidable (h.Supported v) :=
  inferInstanceAs (Decidable ((h.storageClassTable v.Kind).isSome = true))

end kodo

namespace azblob

/-- The marker `List` holds after the pages `pages`, when it held `marker`
before them. -/
def markerAfter (marker : Marker) : List ListBlobsFlatSegmentResponse → Marker
  | [] => marker
  | p :: ps => markerAfter p.NextMarker ps

/-- The requests `List` sends for the pages `pages` when it holds `marker`
before them. -/
def callsFor (opt : pairStorageList) (rp : String) :
    Marker → List ListBlobsFlatSegmentResponse → List ListBlobsCall
  | _, [] => []
  | marker, p :: ps => ⟨opt.Context, marker, ⟨rp⟩⟩ :: callsFor opt rp p.NextMarker ps

/-- The service answers the requests of `List`, from the `n`-th request on
and with `marker` as the marker of that request, with the pages `pages` in
turn, every request carrying the marker of the page before it. -/
def Answers (s : Storage) (opt : pairStorageList) (rp : String) :
    Nat → Marker → List ListBlobsFlatSegmentResponse → Prop
  | _, _, [] => True
  | n, marker, p :: ps =>
    s.bucket.ListBlobsFlatSegment n opt.Context marker ⟨rp⟩ = .ok p ∧
      Answers s opt rp (n + 1) p.NextMarker ps

/-- All entries of the pages, in the order the service returned them. -/
def allEntries (pages : List ListBlobsFlatSegmentResponse) : List BlobItem :=
  pages.flatMap (fun p => p.Segment.BlobItems)

/-- The access tier of the entry is in the mapping table. -/
def Helpers.Supported (h : Helpers) (v : BlobItem) : Prop :=
  (h.storageClassTable v.Properties.AccessTier).isSome = true

instance Helpers.decidableSupported (h : Helpers) (v : BlobItem) : Decidable (h.Supported v) :=
  inferInstanceAs (Decidable ((h.storageClassTable v.Properties.AccessTier).isSome = true))

end azblob

/-! ## Concrete services and clients

Small instances on which the theorems are evaluated. The work directory of
the clients is empty, so the path functions leave a path as it is. -/

namespace kodo

/-- A service that answers the `n`-th `ListFiles` request with the `n`-th
element of `answers`, and every `Stat` request with `stat`. -/
def scriptedBucket (answers : List (Except Err ListFilesRet)) (stat : Except Err FileInfo) :
    BucketManager where
  ListFiles n _ _ _ _ _ := answers.getD n (.error (Err.new "no answer"))
  Stat _ _ := stat

/-- Helpers with the mapping table `0 ↦ Hot`, `1 ↦ Warm` and an option parser
that accepts everything. -/
def demoHelpers : Helpers where
  getAbsPath s path := s.workDir ++ path
  getRelPath _ key := key
  convertUnixTimestampToTime t := t
  storageClassTable t := if t = 0 then some .Hot else if t = 1 then some .Warm else none
  parseStoragePairList _ := .ok {}

/-- A client of the bucket `b` over the service `bucket`. -/
def demoStorage (bucket : BucketManager) : Storage :=
  { bucket := bucket, domain := "d", putPolicy := ⟨"b"⟩, name := "b", workDir := "" }

/-- Page 1 of the example listing: marker `m1` and one entry. -/
def demoPage1 : ListFilesRet := { entries := [{ Key := "a" }], nextMarker := "m1" }

/-- Page 2 of the example listing: no marker and no entries. -/
def demoPage2 : ListFilesRet := { entries := [], nextMarker := "" }

/-- A page whose second entry has a storage type outside the table. -/
def demoBadPage : ListFilesRet :=
  { entries := [{ Key := "b" }, { Key := "c", Kind := 9 }, { Key := "d" }], nextMarker := "m2" }

end kodo

namespace azblob

/-- A service that answers the `n`-th `ListBlobsFlatSegment` request with the
`n`-th element of `answers`, and every `GetProperties` request with `stat`. -/
def scriptedBucket (answers : List (Except Err ListBlobsFlatSegmentResponse))
    (stat : Except Err BlobGetPropertiesResponse) : ContainerURL where
  ListBlobsFlatSegment n _ _ _ := answers.getD n (.error (Err.new "no answer"))
  GetProperties _ _ := stat

/-- Helpers with the mapping table `Hot ↦ Hot`, `Cool ↦ Warm`, `Archive ↦ Cold`
and option parsers that accept everything. -/
def demoHelpers : Helpers where
  getAbsPath s path := s.workDir ++ path
  getRelPath _ key := key
  storageClassTable t :=
    if t = "Hot" then some .Hot else if t = "Cool" then some .Warm
    else if t = "Archive" then some .Cold else none
  parseStoragePairList _ := .ok {}
  parseStoragePairStat _ := .ok {}

/-- A client of the container `b` over the service `bucket`. -/
def demoStorage (bucket : ContainerURL) : Storage :=
  { bucket := bucket, name := "b", workDir := "" }

/-- Page 1 of the example listing: marker `m1` and one entry. -/
def demoPage1 : ListBlobsFlatSegmentResponse :=
  { Segment := ⟨[{ Name := "a", Properties := { AccessTier := "Hot" } }]⟩,
    NextMarker := ⟨some "m1"⟩ }

/-- Page 2 of the example listing: the marker of a final portion and no
entries. -/
def demoPage2 : ListBlobsFlatSegmentResponse :=
  { Segment := ⟨[]⟩, NextMarker := ⟨some ""⟩ }

/-- A page whose second entry has an access tier outside the table. -/
def demoBadPage : ListBlobsFlatSegmentResponse :=
  { Segment := ⟨[{ Name := "b", Properties := { AccessTier := "Cool" } },
      { Name := "c", Properties := { AccessTier := "xxxx" } },
      { Name := "d", Properties := { AccessTier := "Hot" } }]⟩,
    NextMarker := ⟨some "m2"⟩ }

end azblob

namespace qingstor

/-- A backend on which every call succeeds. -/
def okBucket : Bucket where
  UploadMultipart _ _ := none
  CompleteMultipartUpload _ _ := none
  AbortMultipartUpload _ _ := none

/-- A backend on which every call fails. -/
def failingBucket : Bucket where
  UploadMultipart _ _ := some (Err.new "backend")
  CompleteMultipartUpload _ _ := some (Err.new "backend")
  AbortMultipartUpload _ _ := some (Err.new "backend")

/-- The table that tracks the fresh upload `u1` of `a/b` and the upload `u2`
of `c`, which holds one part. -/
def demoSegments : Segments :=
  (AList.singleton "u2"
    { ID := "u2", Path := "c", Parts := AList.singleton 0 ⟨0, 1⟩ }).insert "u1"
    (segment.NewSegment "a/b" "u1" 5)

/-- The table after parts were written at offset 0 and then at offset 5 of
the upload `u1`. -/
def demoWritten : Segments :=
  (Storage.WriteSegment
    ⟨okBucket, (Storage.WriteSegment ⟨okBucket, demoSegments⟩ "u1" 0 5 []).segments⟩
    "u1" 5 5 []).segments

end qingstor

/-! ## `StorageMeta` (`types/metadata/storage_meta.go`) -/

namespace metadata

/-- Modelled from the spec: the struct `StorageMeta` is declared in a file of
`types/metadata` that is not among the sources. It describes the storage
container: `Name`, `WorkDir` and a map `m` of optional attributes, which holds
the optional `Location`. The map is a Go map: `none` is the nil map, which
the zero value `StorageMeta{}` holds, and `some bag` an allocated map, as
`NewStorageMeta` makes it. -/
structure StorageMeta where
  Name : String := ""
  WorkDir : String := ""
  m : Option Bag := none
deriving DecidableEq

/-- Modelled from the spec: `NewStorageMeta` is not among the sources; a fresh
StorageMeta has empty `Name` and `WorkDir` and an allocated, empty map. -/
def NewStorageMeta : StorageMeta := { m := some ∅ }

def StorageMetaLocation : String := "location"

namespace StorageMeta

/-- The map read `m.m[key]` with its presence flag: a nil map reads as an
empty one. -/
def entry (m : StorageMeta) (key : String) : Option Value :=
  match m.m with
  | none => none
  | some bag => bag.lookup key

/-- GetLocation will get location value from metadata. The result `none` is
the panic of the type assertion `v.(string)` on a value that is no string. -/
def GetLocation (m : StorageMeta) : Option (String × Bool) :=
  match m.entry StorageMetaLocation with
  | none => some ("", false)
  | some (Value.string v) => some (v, true)
  | some _ => none

/-- MustGetLocation will get location value from metadata. The result `none`
is the panic of the type assertion `m.m[StorageMetaLocation].(string)`, on a
missing key as on a value that is no string. -/
def MustGetLocation (m : StorageMeta) : Option String :=
  match m.entry StorageMetaLocation with
  | some (Value.string v) => some v
  | _ => none

/-- SetLocation will set location value into metadata. The result `none` is
the panic of the write `m.m[StorageMetaLocation] = v` into a nil map. -/
def SetLocation (m : StorageMeta) (v : String) : Option StorageMeta :=
  match m.m with
  | none => none
  | some bag => some { m with m := some (bag.insert StorageMetaLocation (Value.string v)) }

end StorageMeta

end metadata

/-! ## `Init` and `Metadata` of the storagers -/

namespace strings

/-- The function `strings.TrimLeft(s, cutset)`: `s` without its leading
characters that are in `cutset`. -/
def TrimLeft (s cutset : String) : String :=
  ⟨s.data.dropWhile (fun c => cutset.data.contains c)⟩

end strings

namespace kodo

/-- The options `parseStoragePairInit` yields (generated code, not among the
sources). -/
structure pairStorageInit where
  HasWorkDir : Bool := false
  WorkDir : String := ""

/-- Init implements Storager.Init. The parser `parseStoragePairInit` is not
among the sources and is a parameter; the result is the error returned and
the client after the call. -/
def Storage.Init (parseStoragePairInit : types.Pairs → Except Err pairStorageInit)
    (s : Storage) (pairs : types.Pairs) : Option Err × Storage :=
  match parseStoragePairInit pairs with
  | .error err => (some (fmt.Errorf (s.String ++ " Init: ") err), s)
  | .ok opt =>
    let s := if opt.HasWorkDir then { s with workDir := strings.TrimLeft opt.WorkDir "/" } else s
    (none, s)

/-- Metadata implements Storager.Metadata. The result is the StorageMeta and
the error returned, and the client after the call. -/
def Storage.Metadata (s : Storage) (_pairs : types.Pairs) :
    (metadata.StorageMeta × Option Err) × Storage :=
  let m := metadata.NewStorageMeta
  let m := { m with Name := s.name }
  let m := { m with WorkDir := s.workDir }
  ((m, none), s)

/-- The answers of the service to the requests `calls`, the first of which is
the `n`-th request of the run. -/
def responses (s : Storage) : Nat → List ListFilesCall → List (Except Err ListFilesRet)
  | _, [] => []
  | n, c :: cs =>
    s.bucket.ListFiles n c.bucket c.pfx c.delimiter c.marker c.limit :: responses s (n + 1) cs

/-- The number of pages a run consumed: the requests that were answered with
a page. -/
def pagesConsumed (s : Storage) (calls : List ListFilesCall) : Nat :=
  ((responses s 0 calls).filter (fun a => a.isOk)).length

end kodo

namespace azblob

/-- The options `parseStoragePairInit` yields (generated code, not among the
sources). -/
structure pairStorageInit where
  HasWorkDir : Bool := false
  WorkDir : String := ""

/-- Init implements Storager.Init. The parser `parseStoragePairInit` is not
among the sources and is a parameter; the result is the error returned and
the client after the call. -/
def Storage.Init (parseStoragePairInit : types.Pairs → Except Err pairStorageInit)
    (s : Storage) (pairs : types.Pairs) : Option Err × Storage :=
  match parseStoragePairInit pairs with
  | .error err => (some (fmt.Errorf (s.String ++ " Init: ") err), s)
  | .ok opt =>
    let s := if opt.HasWorkDir then { s with workDir := strings.TrimLeft opt.WorkDir "/" } else s
    (none, s)

/-- Metadata implements Storager.Metadata. The result is the StorageMeta and
the error returned, and the client after the call. -/
def Storage.Metadata (s : Storage) (_pairs : types.Pairs) :
    (metadata.StorageMeta × Option Err) × Storage :=
  let m := metadata.NewStorageMeta
  let m := { m with Name := s.name }
  let m := { m with WorkDir := s.workDir }
  ((m, none), s)

/-- The answers of the service to the requests `calls`, the first of which is
the `n`-th request of the run. -/
def responses (s : Storage) :
    Nat → List ListBlobsCall → List (Except Err ListBlobsFlatSegmentResponse)
  | _, [] => []
  | n, c :: cs => s.bucket.ListBlobsFlatSegment n c.ctx c.marker c.o :: responses s (n + 1) cs

/-- The number of pages a run consumed: the requests that were answered with
a page. -/
def pagesConsumed (s : Storage) (calls : List ListBlobsCall) : Nat :=
  ((responses s 0 calls).filter (fun a => a.isOk)).length

end azblob

/-! ## Errors: lemmas -/

theorem Err.Is_self (e : Err) : e.Is e = true := by
  cases e <;> simp [Err.Is]

theorem Err.Is_errorf_of_Is (text : String) {e target : Err} (h : e.Is target = true) :
    (Err.errorf text e).Is target = true := by
  simp [Err.Is, h]

theorem fmt.Errorf_Is (text : String) (e : Err) : (fmt.Errorf text e).Is e = true :=
  Err.Is_errorf_of_Is _ (Err.Is_self e)

/-! ## Listing: lemmas for `kodo` -/

section KodoListing

open kodo

theorem kodo_listObject_of_supported (h : Helpers) (s : Storage) (path : String) (v : ListItem)
    (hv : h.Supported v) : ∃ o, s.listObject h path v = .ok o := by
  unfold Helpers.Supported at hv
  obtain ⟨c, hc⟩ := Option.isSome_iff_exists.mp hv
  simp only [Storage.listObject, formatStorageClass, hc]
  exact ⟨_, rfl⟩

theorem kodo_listEntries_supported (h : Helpers) (s : Storage) (path : String) :
    ∀ es : List ListItem, (∀ v ∈ es, h.Supported v) →
      (s.listEntries h path es).2 = none ∧
        (s.listEntries h path es).1.map Except.ok = es.map (s.listObject h path)
  | [], _ => by simp [Storage.listEntries]
  | v :: rest, hs => by
    obtain ⟨o, ho⟩ := kodo_listObject_of_supported h s path v (hs v (List.mem_cons_self _ _))
    have ih := kodo_listEntries_supported h s path rest
      (fun w hw => hs w (List.mem_cons_of_mem _ hw))
    simp [Storage.listEntries, ho, ih.1, ih.2]

theorem kodo_listEntries_append (h : Helpers) (s : Storage) (path : String) (bs : List ListItem) :
    ∀ es : List ListItem, (∀ v ∈ es, h.Supported v) →
      s.listEntries h path (es ++ bs) =
        ((s.listEntries h path es).1 ++ (s.listEntries h path bs).1,
          (s.listEntries h path bs).2)
  | [], _ => by simp [Storage.listEntries]
  | v :: rest, hs => by
    obtain ⟨o, ho⟩ := kodo_listObject_of_supported h s path v (hs v (List.mem_cons_self _ _))
    have ih := kodo_listEntries_append h s path bs rest
      (fun w hw => hs w (List.mem_cons_of_mem _ hw))
    simp [Storage.listEntries, ho, ih]

theorem kodo_listLoop_pages (h : Helpers) (s : Storage) (path rp : String) :
    ∀ (pages : List ListFilesRet) (n : Nat) (marker : String) (fuel : Nat),
      Answers s rp n marker pages →
      (∀ p ∈ pages, p.nextMarker ≠ "") →
      (∀ v ∈ allEntries pages, h.Supported v) →
      s.listLoop h path rp (pages.length + fuel) n marker =
        (s.listLoop h path rp fuel (n + pages.length) (markerAfter marker pages)).map
          (fun r => ⟨r.err, (s.listEntries h path (allEntries pages)).1 ++ r.visited,
            callsFor s rp marker pages ++ r.calls⟩)
  | [], n, marker, fuel, _, _, _ => by
    simp [markerAfter, allEntries, Storage.listEntries, callsFor]
  | p :: ps, n, marker, fuel, ha, hm, hs => by
    have hsp : ∀ v ∈ p.entries, h.Supported v := fun v hv =>
      hs v (by simp [allEntries]; exact Or.inl hv)
    have hsr : ∀ v ∈ allEntries ps, h.Supported v := fun v hv =>
      hs v (by simp [allEntries] at hv ⊢; exact Or.inr hv)
    have ih := kodo_listLoop_pages h s path rp ps (n + 1) p.nextMarker fuel ha.2
      (fun q hq => hm q (List.mem_cons_of_mem _ hq)) hsr
    have h1 := kodo_listEntries_supported h s path p.entries hsp
    have hp : s.listEntries h path p.entries = ((s.listEntries h path p.entries).1, none) := by
      rw [← h1.1]
    have happ : s.listEntries h path (allEntries (p :: ps)) =
        ((s.listEntries h path p.entries).1 ++ (s.listEntries h path (allEntries ps)).1,
          (s.listEntries h path (allEntries ps)).2) := by
      have := kodo_listEntries_append h s path (allEntries ps) p.entries hsp
      simpa [allEntries] using this
    have hlen : (p :: ps).length + fuel = (ps.length + fuel) + 1 := by
      simp; omega
    rw [hlen, Storage.listLoop, ha.1]
    simp only []
    rw [hp]
    simp only [hm p (List.mem_cons_self _ _), if_false]
    rw [ih, happ]
    simp [markerAfter, callsFor, Option.map_map, Function.comp_def, Nat.add_assoc,
      Nat.add_comm 1]

theorem kodo_Answers_append (s : Storage) (rp : String) (bs : List ListFilesRet) :
    ∀ (as : List ListFilesRet) (n : Nat) (marker : String),
      Answers s rp n marker (as ++ bs) ↔
        Answers s rp n marker as ∧ Answers s rp (n + as.length) (markerAfter marker as) bs
  | [], n, marker => by simp [Answers, markerAfter]
  | p :: ps, n, marker => by
    simp [Answers, markerAfter, kodo_Answers_append s rp bs ps (n + 1) p.nextMarker, and_assoc,
      Nat.add_assoc, Nat.add_comm 1]

theorem kodo_allEntries_append (as bs : List ListFilesRet) :
    allEntries (as ++ bs) = allEntries as ++ allEntries bs := by
  simp [allEntries]

theorem kodo_callsFor_length (s : Storage) (rp : String) :
    ∀ (pages : List ListFilesRet) (marker : String),
      (callsFor s rp marker pages).length = pages.length
  | [], _ => rfl
  | p :: ps, _ => by simp [callsFor, kodo_callsFor_length s rp ps p.nextMarker]

theorem kodo_callsFor_append (s : Storage) (rp : String) (bs : List ListFilesRet) :
    ∀ (as : List ListFilesRet) (marker : String),
      callsFor s rp marker (as ++ bs) =
        callsFor s rp marker as ++ callsFor s rp (markerAfter marker as) bs
  | [], _ => rfl
  | p :: ps, _ => by simp [callsFor, markerAfter, kodo_callsFor_append s rp bs ps p.nextMarker]

theorem kodo_listEntries_unsupported (h : Helpers) (s : Storage) (path : String)
    (before after : List ListItem) (v : ListItem)
    (hb : ∀ w ∈ before, h.Supported w) (hv : h.storageClassTable v.Kind = none) :
    s.listEntries h path (before ++ v :: after) =
      ((s.listEntries h path before).1,
        some (fmt.Errorf (s.String ++ " List [" ++ path ++ "]: ")
          types.ErrStorageClassNotSupported)) := by
  rw [kodo_listEntries_append h s path (v :: after) before hb]
  simp [Storage.listEntries, Storage.listObject, formatStorageClass, hv]

/-- A run of `List` over pages that all carry a marker and hold supported
entries only, up to the request that follows them. -/
theorem kodo_List_after_pages (h : Helpers) (s : Storage) (path : String) (pairs : types.Pairs)
    (opt : pairStorageList) (pages : List ListFilesRet) (fuel : Nat)
    (hparse : h.parseStoragePairList pairs = .ok opt)
    (ha : Answers s (h.getAbsPath s path) 0 "" pages)
    (hm : ∀ p ∈ pages, p.nextMarker ≠ "")
    (hs : ∀ v ∈ allEntries pages, h.Supported v) :
    s.List h path pairs (pages.length + fuel) =
      (s.listLoop h path (h.getAbsPath s path) fuel pages.length (markerAfter "" pages)).map
        (fun r => ⟨r.err, (s.listEntries h path (allEntries pages)).1 ++ r.visited,
          callsFor s (h.getAbsPath s path) "" pages ++ r.calls⟩) := by
  have := kodo_listLoop_pages h s path (h.getAbsPath s path) pages 0 "" fuel ha hm hs
  simpa [Storage.List, hparse] using this

/-- A complete run of `List`: every page but the last carries a marker. -/
theorem kodo_List_all_pages (h : Helpers) (s : Storage) (path : String) (pairs : types.Pairs)
    (opt : pairStorageList) (init : List ListFilesRet) (last : ListFilesRet)
    (hparse : h.parseStoragePairList pairs = .ok opt)
    (ha : Answers s (h.getAbsPath s path) 0 "" (init ++ [last]))
    (hm : ∀ p ∈ init, p.nextMarker ≠ "")
    (hl : last.nextMarker = "")
    (hs : ∀ v ∈ allEntries (init ++ [last]), h.Supported v)
    (fuel : Nat) (hf : init.length + 1 ≤ fuel) :
    ∃ r, s.List h path pairs fuel = some r ∧ r.err = none ∧
      r.visited.map Except.ok = (allEntries (init ++ [last])).map (s.listObject h path) ∧
      r.calls = callsFor s (h.getAbsPath s path) "" (init ++ [last]) := by
  obtain ⟨k, rfl⟩ : ∃ k, fuel = init.length + (k + 1) := ⟨fuel - (init.length + 1), by omega⟩
  rw [kodo_allEntries_append] at hs
  have hsi : ∀ v ∈ allEntries init, h.Supported v := fun v hv =>
    hs v (List.mem_append_left _ hv)
  have hsl : ∀ v ∈ last.entries, h.Supported v := fun v hv =>
    hs v (List.mem_append_right _ (by simpa [allEntries] using hv))
  obtain ⟨hai, hal⟩ := (kodo_Answers_append s _ [last] init 0 "").mp ha
  have e1 := kodo_listEntries_supported h s path (allEntries init) hsi
  have e2 := kodo_listEntries_supported h s path last.entries hsl
  have hp : s.listEntries h path last.entries = ((s.listEntries h path last.entries).1, none) := by
    rw [← e2.1]
  rw [kodo_List_after_pages h s path pairs opt init (k + 1) hparse hai hm hsi]
  simp only [Answers, Nat.zero_add, and_true] at hal
  rw [Storage.listLoop, hal]
  simp only []
  rw [hp]
  simp only [hl, if_true, Option.map_some']
  refine ⟨_, rfl, rfl, ?_, ?_⟩
  · rw [kodo_allEntries_append, List.map_append, List.map_append, e1.2, e2.2]
    simp [allEntries]
  · simp [kodo_callsFor_append, callsFor]

/-- A run of `List` that ends with a failed page request. -/
theorem kodo_List_page_error (h : Helpers) (s : Storage) (path : String) (pairs : types.Pairs)
    (opt : pairStorageList) (pages : List ListFilesRet) (e : Err)
    (hparse : h.parseStoragePairList pairs = .ok opt)
    (ha : Answers s (h.getAbsPath s path) 0 "" pages)
    (hm : ∀ p ∈ pages, p.nextMarker ≠ "")
    (hs : ∀ v ∈ allEntries pages, h.Supported v)
    (he : s.bucket.ListFiles pages.length s.name (h.getAbsPath s path) ""
      (markerAfter "" pages) 1000 = .error e)
    (fuel : Nat) (hf : pages.length + 1 ≤ fuel) :
    ∃ r, s.List h path pairs fuel = some r ∧
      r.err = some (fmt.Errorf (s.String ++ " List [" ++ path ++ "]: ") e) ∧
      r.visited.map Except.ok = (allEntries pages).map (s.listObject h path) ∧
      r.calls = callsFor s (h.getAbsPath s path) "" pages ++
        [⟨s.name, h.getAbsPath s path, "", markerAfter "" pages, 1000⟩] := by
  obtain ⟨k, rfl⟩ : ∃ k, fuel = pages.length + (k + 1) := ⟨fuel - (pages.length + 1), by omega⟩
  have e1 := kodo_listEntries_supported h s path (allEntries pages) hs
  rw [kodo_List_after_pages h s path pairs opt pages (k + 1) hparse ha hm hs]
  rw [Storage.listLoop, he]
  simp only [Option.map_some']
  exact ⟨_, rfl, rfl, by simp [e1.2], rfl⟩

/-- A run of `List` that ends at an entry whose class is outside the table. -/
theorem kodo_List_unsupported (h : Helpers) (s : Storage) (path : String) (pairs : types.Pairs)
    (opt : pairStorageList) (init : List ListFilesRet) (page : ListFilesRet)
    (before after : List ListItem) (v : ListItem)
    (hparse : h.parseStoragePairList pairs = .ok opt)
    (ha : Answers s (h.getAbsPath s path) 0 "" (init ++ [page]))
    (hm : ∀ p ∈ init, p.nextMarker ≠ "")
    (hs : ∀ w ∈ allEntries init, h.Supported w)
    (hpe : page.entries = before ++ v :: after)
    (hb : ∀ w ∈ before, h.Supported w)
    (hv : h.storageClassTable v.Kind = none)
    (fuel : Nat) (hf : init.length + 1 ≤ fuel) :
    ∃ r, s.List h path pairs fuel = some r ∧
      r.err = some (fmt.Errorf (s.String ++ " List [" ++ path ++ "]: ")
        types.ErrStorageClassNotSupported) ∧
      r.visited.map Except.ok = (allEntries init ++ before).map (s.listObject h path) ∧
      r.calls = callsFor s (h.getAbsPath s path) "" (init ++ [page]) := by
  obtain ⟨k, rfl⟩ : ∃ k, fuel = init.length + (k + 1) := ⟨fuel - (init.length + 1), by omega⟩
  obtain ⟨hai, hal⟩ := (kodo_Answers_append s _ [page] init 0 "").mp ha
  have e1 := kodo_listEntries_supported h s path (allEntries init) hs
  have e2 := kodo_listEntries_supported h s path before hb
  rw [kodo_List_after_pages h s path pairs opt init (k + 1) hparse hai hm hs]
  simp only [Answers, Nat.zero_add, and_true] at hal
  rw [Storage.listLoop, hal]
  simp only []
  rw [hpe, kodo_listEntries_unsupported h s path before after v hb hv]
  simp only [Option.map_some']
  refine ⟨_, rfl, rfl, ?_, ?_⟩
  · rw [List.map_append, List.map_append, e1.2, e2.2]
  · simp [kodo_callsFor_append, callsFor]

/-- The answer of `Stat` for a class outside the table. -/
theorem kodo_Stat_unsupported (h : Helpers) (s : Storage) (path : String) (pairs : types.Pairs)
    (fi : FileInfo)
    (hstat : s.bucket.Stat s.name (h.getAbsPath s path) = .ok fi)
    (hv : h.storageClassTable fi.Kind = none) :
    s.Stat h path pairs =
      (none, some (fmt.Errorf (s.String ++ " Stat [" ++ path ++ "]: ")
        types.ErrStorageClassNotSupported)) := by
  simp [Storage.Stat, hstat, formatStorageClass, hv]

end KodoListing

/-! ## Listing and stat: lemmas for `azblob` -/

section AzblobListing

open azblob

theorem azblob_listObject_of_supported (h : Helpers) (s : Storage) (path : String) (v : BlobItem)
    (hv : h.Supported v) : ∃ o, s.listObject h path v = .ok o := by
  unfold Helpers.Supported at hv
  obtain ⟨c, hc⟩ := Option.isSome_iff_exists.mp hv
  simp only [Storage.listObject, formatStorageClass, hc]
  exact ⟨_, rfl⟩

theorem azblob_listEntries_supported (h : Helpers) (s : Storage) (path : String) :
    ∀ es : List BlobItem, (∀ v ∈ es, h.Supported v) →
      (s.listEntries h path es).2 = none ∧
        (s.listEntries h path es).1.map Except.ok = es.map (s.listObject h path)
  | [], _ => by simp [Storage.listEntries]
  | v :: rest, hs => by
    obtain ⟨o, ho⟩ := azblob_listObject_of_supported h s path v (hs v (List.mem_cons_self _ _))
    have ih := azblob_listEntries_supported h s path rest
      (fun w hw => hs w (List.mem_cons_of_mem _ hw))
    simp [Storage.listEntries, ho, ih.1, ih.2]

theorem azblob_listEntries_append (h : Helpers) (s : Storage) (path : String) (bs : List BlobItem) :
    ∀ es : List BlobItem, (∀ v ∈ es, h.Supported v) →
      s.listEntries h path (es ++ bs) =
        ((s.listEntries h path es).1 ++ (s.listEntries h path bs).1,
          (s.listEntries h path bs).2)
  | [], _ => by simp [Storage.listEntries]
  | v :: rest, hs => by
    obtain ⟨o, ho⟩ := azblob_listObject_of_supported h s path v (hs v (List.mem_cons_self _ _))
    have ih := azblob_listEntries_append h s path bs rest
      (fun w hw => hs w (List.mem_cons_of_mem _ hw))
    simp [Storage.listEntries, ho, ih]

theorem azblob_listEntries_unsupported (h : Helpers) (s : Storage) (path : String)
    (before after : List BlobItem) (v : BlobItem)
    (hb : ∀ w ∈ before, h.Supported w)
    (hv : h.storageClassTable v.Properties.AccessTier = none) :
    s.listEntries h path (before ++ v :: after) =
      ((s.listEntries h path before).1,
        some (fmt.Errorf (s.String ++ " List [" ++ path ++ "]: ")
          types.ErrStorageClassNotSupported)) := by
  rw [azblob_listEntries_append h s path (v :: after) before hb]
  simp [Storage.listEntries, Storage.listObject, formatStorageClass, hv]

theorem azblob_Answers_append (s : Storage) (opt : pairStorageList) (rp : String)
    (bs : List ListBlobsFlatSegmentResponse) :
    ∀ (as : List ListBlobsFlatSegmentResponse) (n : Nat) (marker : Marker),
      Answers s opt rp n marker (as ++ bs) ↔
        Answers s opt rp n marker as ∧
          Answers s opt rp (n + as.length) (markerAfter marker as) bs
  | [], n, marker => by simp [Answers, markerAfter]
  | p :: ps, n, marker => by
    simp [Answers, markerAfter, azblob_Answers_append s opt rp bs ps (n + 1) p.NextMarker, and_assoc,
      Nat.add_assoc, Nat.add_comm 1]

theorem azblob_allEntries_append (as bs : List ListBlobsFlatSegmentResponse) :
    allEntries (as ++ bs) = allEntries as ++ allEntries bs := by
  simp [allEntries]

theorem azblob_callsFor_length (opt : pairStorageList) (rp : String) :
    ∀ (pages : List ListBlobsFlatSegmentResponse) (marker : Marker),
      (callsFor opt rp marker pages).length = pages.length
  | [], _ => rfl
  | p :: ps, _ => by simp [callsFor, azblob_callsFor_length opt rp ps p.NextMarker]

theorem azblob_callsFor_append (opt : pairStorageList) (rp : String)
    (bs : List ListBlobsFlatSegmentResponse) :
    ∀ (as : List ListBlobsFlatSegmentResponse) (marker : Marker),
      callsFor opt rp marker (as ++ bs) =
        callsFor opt rp marker as ++ callsFor opt rp (markerAfter marker as) bs
  | [], _ => rfl
  | p :: ps, _ => by simp [callsFor, markerAfter, azblob_callsFor_append opt rp bs ps p.NextMarker]

theorem azblob_listLoop_pages (h : Helpers) (s : Storage) (opt : pairStorageList) (path rp : String) :
    ∀ (pages : List ListBlobsFlatSegmentResponse) (n : Nat) (marker : Marker) (fuel : Nat),
      Answers s opt rp n marker pages →
      (∀ p ∈ pages, p.NextMarker.NotDone = true) →
      (∀ v ∈ allEntries pages, h.Supported v) →
      s.listLoop h opt path rp (pages.length + fuel) n marker =
        (s.listLoop h opt path rp fuel (n + pages.length) (markerAfter marker pages)).map
          (fun r => ⟨r.err, (s.listEntries h path (allEntries pages)).1 ++ r.visited,
            callsFor opt rp marker pages ++ r.calls⟩)
  | [], n, marker, fuel, _, _, _ => by
    simp [markerAfter, allEntries, Storage.listEntries, callsFor]
  | p :: ps, n, marker, fuel, ha, hm, hs => by
    have hsp : ∀ v ∈ p.Segment.BlobItems, h.Supported v := fun v hv =>
      hs v (by simp [allEntries]; exact Or.inl hv)
    have hsr : ∀ v ∈ allEntries ps, h.Supported v := fun v hv =>
      hs v (by simp [allEntries] at hv ⊢; exact Or.inr hv)
    have ih := azblob_listLoop_pages h s opt path rp ps (n + 1) p.NextMarker fuel ha.2
      (fun q hq => hm q (List.mem_cons_of_mem _ hq)) hsr
    have h1 := azblob_listEntries_supported h s path p.Segment.BlobItems hsp
    have hp : s.listEntries h path p.Segment.BlobItems =
        ((s.listEntries h path p.Segment.BlobItems).1, none) := by
      rw [← h1.1]
    have happ : s.listEntries h path (allEntries (p :: ps)) =
        ((s.listEntries h path p.Segment.BlobItems).1 ++
            (s.listEntries h path (allEntries ps)).1,
          (s.listEntries h path (allEntries ps)).2) := by
      have := azblob_listEntries_append h s path (allEntries ps) p.Segment.BlobItems hsp
      simpa [allEntries] using this
    have hlen : (p :: ps).length + fuel = (ps.length + fuel) + 1 := by
      simp; omega
    rw [hlen, Storage.listLoop, ha.1]
    simp only []
    rw [hp]
    simp only [hm p (List.mem_cons_self _ _), Bool.not_true, if_false]
    rw [ih, happ]
    simp [markerAfter, callsFor, Option.map_map, Function.comp_def, Nat.add_assoc,
      Nat.add_comm 1]

/-- A run of `List` over pages that all carry a marker and hold supported
entries only, up to the request that follows them. -/
theorem azblob_List_after_pages (h : Helpers) (s : Storage) (path : String) (pairs : types.Pairs)
    (opt : pairStorageList) (pages : List ListBlobsFlatSegmentResponse) (fuel : Nat)
    (hparse : h.parseStoragePairList pairs = .ok opt)
    (ha : Answers s opt (h.getAbsPath s path) 0 {} pages)
    (hm : ∀ p ∈ pages, p.NextMarker.NotDone = true)
    (hs : ∀ v ∈ allEntries pages, h.Supported v) :
    s.List h path pairs (pages.length + fuel) =
      (s.listLoop h opt path (h.getAbsPath s path) fuel pages.length
          (markerAfter {} pages)).map
        (fun r => ⟨r.err, (s.listEntries h path (allEntries pages)).1 ++ r.visited,
          callsFor opt (h.getAbsPath s path) {} pages ++ r.calls⟩) := by
  have := azblob_listLoop_pages h s opt path (h.getAbsPath s path) pages 0 {} fuel ha hm hs
  simpa [Storage.List, hparse] using this

/-- A complete run of `List`: every page but the last carries a marker. -/
theorem azblob_List_all_pages (h : Helpers) (s : Storage) (path : String) (pairs : types.Pairs)
    (opt : pairStorageList) (init : List ListBlobsFlatSegmentResponse)
    (last : ListBlobsFlatSegmentResponse)
    (hparse : h.parseStoragePairList pairs = .ok opt)
    (ha : Answers s opt (h.getAbsPath s path) 0 {} (init ++ [last]))
    (hm : ∀ p ∈ init, p.NextMarker.NotDone = true)
    (hl : last.NextMarker.NotDone = false)
    (hs : ∀ v ∈ allEntries (init ++ [last]), h.Supported v)
    (fuel : Nat) (hf : init.length + 1 ≤ fuel) :
    ∃ r, s.List h path pairs fuel = some r ∧ r.err = none ∧
      r.visited.map Except.ok = (allEntries (init ++ [last])).map (s.listObject h path) ∧
      r.calls = callsFor opt (h.getAbsPath s path) {} (init ++ [last]) := by
  obtain ⟨k, rfl⟩ : ∃ k, fuel = init.length + (k + 1) := ⟨fuel - (init.length + 1), by omega⟩
  rw [azblob_allEntries_append] at hs
  have hsi : ∀ v ∈ allEntries init, h.Supported v := fun v hv =>
    hs v (List.mem_append_left _ hv)
  have hsl : ∀ v ∈ last.Segment.BlobItems, h.Supported v := fun v hv =>
    hs v (List.mem_append_right _ (by simpa [allEntries] using hv))
  obtain ⟨hai, hal⟩ := (azblob_Answers_append s opt _ [last] init 0 {}).mp ha
  have e1 := azblob_listEntries_supported h s path (allEntries init) hsi
  have e2 := azblob_listEntries_supported h s path last.Segment.BlobItems hsl
  have hp : s.listEntries h path last.Segment.BlobItems =
      ((s.listEntries h path last.Segment.BlobItems).1, none) := by
    rw [← e2.1]
  rw [azblob_List_after_pages h s path pairs opt init (k + 1) hparse hai hm hsi]
  simp only [Answers, Nat.zero_add, and_true] at hal
  rw [Storage.listLoop, hal]
  simp only []
  rw [hp]
  simp only [hl, Bool.not_false, if_true, Option.map_some']
  refine ⟨_, rfl, rfl, ?_, ?_⟩
  · rw [azblob_allEntries_append, List.map_append, List.map_append, e1.2, e2.2]
    simp [allEntries]
  · simp [azblob_callsFor_append, callsFor]

/-- A run of `List` that ends with a failed page request. -/
theorem azblob_List_page_error (h : Helpers) (s : Storage) (path : String) (pairs : types.Pairs)
    (opt : pairStorageList) (pages : List ListBlobsFlatSegmentResponse) (e : Err)
    (hparse : h.parseStoragePairList pairs = .ok opt)
    (ha : Answers s opt (h.getAbsPath s path) 0 {} pages)
    (hm : ∀ p ∈ pages, p.NextMarker.NotDone = true)
    (hs : ∀ v ∈ allEntries pages, h.Supported v)
    (he : s.bucket.ListBlobsFlatSegment pages.length opt.Context (markerAfter {} pages)
      ⟨h.getAbsPath s path⟩ = .error e)
    (fuel : Nat) (hf : pages.length + 1 ≤ fuel) :
    ∃ r, s.List h path pairs fuel = some r ∧
      r.err = some (fmt.Errorf (s.String ++ " List [" ++ path ++ "]: ") e) ∧
      r.visited.map Except.ok = (allEntries pages).map (s.listObject h path) ∧
      r.calls = callsFor opt (h.getAbsPath s path) {} pages ++
        [⟨opt.Context, markerAfter {} pages, ⟨h.getAbsPath s path⟩⟩] := by
  obtain ⟨k, rfl⟩ : ∃ k, fuel = pages.length + (k + 1) := ⟨fuel - (pages.length + 1), by omega⟩
  have e1 := azblob_listEntries_supported h s path (allEntries pages) hs
  rw [azblob_List_after_pages h s path pairs opt pages (k + 1) hparse ha hm hs]
  rw [Storage.listLoop, he]
  simp only [Option.map_some']
  exact ⟨_, rfl, rfl, by simp [e1.2], rfl⟩

/-- A run of `List` that ends at an entry whose class is outside the table. -/
theorem azblob_List_unsupported (h : Helpers) (s : Storage) (path : String) (pairs : types.Pairs)
    (opt : pairStorageList) (init : List ListBlobsFlatSegmentResponse)
    (page : ListBlobsFlatSegmentResponse)
    (before after : List BlobItem) (v : BlobItem)
    (hparse : h.parseStoragePairList pairs = .ok opt)
    (ha : Answers s opt (h.getAbsPath s path) 0 {} (init ++ [page]))
    (hm : ∀ p ∈ init, p.NextMarker.NotDone = true)
    (hs : ∀ w ∈ allEntries init, h.Supported w)
    (hpe : page.Segment.BlobItems = before ++ v :: after)
    (hb : ∀ w ∈ before, h.Supported w)
    (hv : h.storageClassTable v.Properties.AccessTier = none)
    (fuel : Nat) (hf : init.length + 1 ≤ fuel) :
    ∃ r, s.List h path pairs fuel = some r ∧
      r.err = some (fmt.Errorf (s.String ++ " List [" ++ path ++ "]: ")
        types.ErrStorageClassNotSupported) ∧
      r.visited.map Except.ok = (allEntries init ++ before).map (s.listObject h path) ∧
      r.calls = callsFor opt (h.getAbsPath s path) {} (init ++ [page]) := by
  obtain ⟨k, rfl⟩ : ∃ k, fuel = init.length + (k + 1) := ⟨fuel - (init.length + 1), by omega⟩
  obtain ⟨hai, hal⟩ := (azblob_Answers_append s opt _ [page] init 0 {}).mp ha
  have e1 := azblob_listEntries_supported h s path (allEntries init) hs
  have e2 := azblob_listEntries_supported h s path before hb
  rw [azblob_List_after_pages h s path pairs opt init (k + 1) hparse hai hm hs]
  simp only [Answers, Nat.zero_add, and_true] at hal
  rw [Storage.listLoop, hal]
  simp only []
  rw [hpe, azblob_listEntries_unsupported h s path before after v hb hv]
  simp only [Option.map_some']
  refine ⟨_, rfl, rfl, ?_, ?_⟩
  · rw [List.map_append, List.map_append, e1.2, e2.2]
  · simp [azblob_callsFor_append, callsFor]

/-- The answer of `Stat` for a class outside the table. -/
theorem azblob_Stat_unsupported (h : Helpers) (s : Storage) (path : String) (pairs : types.Pairs)
    (opt : pairStorageStat) (output : BlobGetPropertiesResponse)
    (hparse : h.parseStoragePairStat pairs = .ok opt)
    (hstat : s.bucket.GetProperties (h.getAbsPath s path) opt.Context = .ok output)
    (hv : h.storageClassTable output.AccessTier = none) :
    s.Stat h path pairs =
      (none, some (fmt.Errorf (s.String ++ " Stat [" ++ path ++ "]: ")
        types.ErrStorageClassNotSupported)) := by
  simp [Storage.Stat, hparse, hstat, formatStorageClass, hv]

end AzblobListing

/-! ## Segments: lemmas -/

namespace qingstor

theorem keys_length_erase (t : Segments) (id : String) (seg : segment.Segment)
    (hl : t.lookup id = some seg) : (t.erase id).keys.length + 1 = t.keys.length := by
  have hmem : id ∈ t.keys := by
    rw [← AList.mem_keys]
    exact AList.lookup_isSome.mp (by simp [hl])
  rw [AList.keys_erase, List.length_erase_of_mem hmem]
  have : 0 < t.keys.length := List.length_pos_of_mem hmem
  omega

theorem WriteSegment_of_ok (s : Storage) (id : String) (offset size : Int) (r : Reader)
    (seg : segment.Segment) (hl : s.segments.lookup id = some seg)
    (hok : (s.WriteSegment id offset size r).err = none) :
    (s.WriteSegment id offset size r).segments =
      s.segments.insert id { seg with Parts := seg.Parts.insert offset ⟨offset, size⟩ } := by
  unfold Storage.WriteSegment at hok ⊢
  simp only [hl] at hok ⊢
  cases hb : s.bucket.UploadMultipart seg.Path ⟨seg.ID, offset, size, r⟩ with
  | none => simp
  | some e => simp [hb] at hok

end qingstor

namespace segment

theorem parts_offsets (seg : Segment) (hk : seg.KeyedByOffset) :
    seg.parts.map (fun p => p.Offset) = seg.Parts.keys := by
  unfold Segment.parts AList.keys List.keys
  rw [List.map_map]
  exact List.map_congr_left (fun e he => hk e he)

theorem SortedParts_perm (seg : Segment) : seg.SortedParts.Perm seg.parts :=
  List.perm_insertionSort _ _

theorem SortedParts_strict (seg : Segment) (hk : seg.KeyedByOffset) :
    seg.SortedParts.Pairwise (fun a b => a.Offset < b.Offset) := by
  have hsorted : seg.SortedParts.Pairwise Part.le := List.sorted_insertionSort Part.le seg.parts
  have hnodup : (seg.SortedParts.map (fun p => p.Offset)).Nodup := by
    have hp : (seg.SortedParts.map (fun p => p.Offset)).Perm (seg.parts.map (fun p => p.Offset)) :=
      (SortedParts_perm seg).map _
    rw [parts_offsets seg hk] at hp
    exact hp.nodup_iff.mpr seg.Parts.keys_nodup
  have hne : seg.SortedParts.Pairwise (fun a b => a.Offset ≠ b.Offset) := by
    unfold List.Nodup at hnodup
    exact (List.pairwise_map.mp hnodup)
  exact (hsorted.and hne).imp (fun h => lt_of_le_of_ne h.1 h.2)

/-- Filing a part under its own offset keeps every part filed under its
own offset. -/
theorem KeyedByOffset_insert (seg : Segment) (hk : seg.KeyedByOffset) (offset size : Int) :
    ({ seg with Parts := seg.Parts.insert offset ⟨offset, size⟩ } : Segment).KeyedByOffset := by
  intro e he
  simp only [AList.insert_entries, List.mem_cons] at he
  rcases he with rfl | he
  · rfl
  · exact hk e ((List.kerase_sublist offset seg.Parts.entries).subset he)

end segment

/-! ## Listing and stat: the properties -/

/-- C1: when the service answers the page requests of `List` with the
successful pages `init ++ [last]`, every page of `init` carrying a
continuation marker and `last` carrying none, and every entry has a supported
storage class, then `List` returns (with any bound of at least as many rounds
as pages), its error is nil, the visitor was called once per entry with the
object built for it, in the order of the entries of the pages, and `List`
sent exactly one request per page. Holds for `kodo` and for `azblob`. -/
theorem List_visits_every_entry_in_page_order :
    (∀ (h : kodo.Helpers) (s : kodo.Storage) (path : String) (pairs : types.Pairs)
        (opt : kodo.pairStorageList) (init : List kodo.ListFilesRet) (last : kodo.ListFilesRet)
        (fuel : Nat),
        h.parseStoragePairList pairs = .ok opt →
        kodo.Answers s (h.getAbsPath s path) 0 "" (init ++ [last]) →
        (∀ p ∈ init, p.nextMarker ≠ "") →
        last.nextMarker = "" →
        (∀ v ∈ kodo.allEntries (init ++ [last]), h.Supported v) →
        init.length + 1 ≤ fuel →
        ∃ r, s.List h path pairs fuel = some r ∧ r.err = none ∧
          r.visited.map Except.ok =
            (kodo.allEntries (init ++ [last])).map (s.listObject h path) ∧
          r.calls.length = init.length + 1) ∧
    (∀ (h : azblob.Helpers) (s : azblob.Storage) (path : String) (pairs : types.Pairs)
        (opt : azblob.pairStorageList) (init : List azblob.ListBlobsFlatSegmentResponse)
        (last : azblob.ListBlobsFlatSegmentResponse) (fuel : Nat),
        h.parseStoragePairList pairs = .ok opt →
        azblob.Answers s opt (h.getAbsPath s path) 0 {} (init ++ [last]) →
        (∀ p ∈ init, p.NextMarker.NotDone = true) →
        last.NextMarker.NotDone = false →
        (∀ v ∈ azblob.allEntries (init ++ [last]), h.Supported v) →
        init.length + 1 ≤ fuel →
        ∃ r, s.List h path pairs fuel = some r ∧ r.err = none ∧
          r.visited.map Except.ok =
            (azblob.allEntries (init ++ [last])).map (s.listObject h path) ∧
          r.calls.length = init.length + 1) := by
  constructor
  · intro h s path pairs opt init last fuel hparse ha hm hl hs hf
    obtain ⟨r, hr, herr, hvis, hcalls⟩ :=
      kodo_List_all_pages h s path pairs opt init last hparse ha hm hl hs fuel hf
    exact ⟨r, hr, herr, hvis, by simp [hcalls, kodo_callsFor_length]⟩
  · intro h s path pairs opt init last fuel hparse ha hm hl hs hf
    obtain ⟨r, hr, herr, hvis, hcalls⟩ :=
      azblob_List_all_pages h s path pairs opt init last hparse ha hm hl hs fuel hf
    exact ⟨r, hr, herr, hvis, by simp [hcalls, azblob_callsFor_length]⟩

/-- The example of C1: page 1 with marker `m1` and one entry, page 2 with no
marker and no entries; one entry is delivered and the traversal ends after
two requests. -/
theorem List_visits_every_entry_in_page_order_witness :
    (∃ r, (kodo.demoStorage (kodo.scriptedBucket
          [.ok kodo.demoPage1, .ok kodo.demoPage2] (.error (Err.new "")))).List
          kodo.demoHelpers "" [] 2 = some r ∧ r.err = none ∧
        r.visited.map Except.ok =
          (kodo.allEntries ([kodo.demoPage1] ++ [kodo.demoPage2])).map
            ((kodo.demoStorage (kodo.scriptedBucket
              [.ok kodo.demoPage1, .ok kodo.demoPage2] (.error (Err.new "")))).listObject
              kodo.demoHelpers "") ∧
        r.calls.length = [kodo.demoPage1].length + 1) ∧
    (∃ r, (azblob.demoStorage (azblob.scriptedBucket
          [.ok azblob.demoPage1, .ok azblob.demoPage2] (.error (Err.new "")))).List
          azblob.demoHelpers "" [] 2 = some r ∧ r.err = none ∧
        r.visited.map Except.ok =
          (azblob.allEntries ([azblob.demoPage1] ++ [azblob.demoPage2])).map
            ((azblob.demoStorage (azblob.scriptedBucket
              [.ok azblob.demoPage1, .ok azblob.demoPage2] (.error (Err.new "")))).listObject
              azblob.demoHelpers "") ∧
        r.calls.length = [azblob.demoPage1].length + 1) :=
  ⟨List_visits_every_entry_in_page_order.1 kodo.demoHelpers _ "" [] {} [kodo.demoPage1]
      kodo.demoPage2 2 rfl ⟨rfl, rfl, trivial⟩ (by decide) rfl (by decide) (by decide),
    List_visits_every_entry_in_page_order.2 azblob.demoHelpers _ "" [] {} [azblob.demoPage1]
      azblob.demoPage2 2 rfl ⟨rfl, rfl, trivial⟩ (by decide) rfl (by decide) (by decide)⟩

/-- C2: when the pages `pages` were answered, each with a continuation
marker and supported entries, and the request for the next page fails with
the backend error `e`, then `List` returns an error that wraps `e`
(`errors.Is` holds), the visitor received exactly the objects of the entries
of `pages`, in order, and `List` sent no request after the failed one: one
request per answered page and the failed request, which is not repeated.
Holds for `kodo` and for `azblob`. -/
theorem List_aborts_on_page_error :
    (∀ (h : kodo.Helpers) (s : kodo.Storage) (path : String) (pairs : types.Pairs)
        (opt : kodo.pairStorageList) (pages : List kodo.ListFilesRet) (e : Err) (fuel : Nat),
        h.parseStoragePairList pairs = .ok opt →
        kodo.Answers s (h.getAbsPath s path) 0 "" pages →
        (∀ p ∈ pages, p.nextMarker ≠ "") →
        (∀ v ∈ kodo.allEntries pages, h.Supported v) →
        s.bucket.ListFiles pages.length s.name (h.getAbsPath s path) ""
          (kodo.markerAfter "" pages) 1000 = .error e →
        pages.length + 1 ≤ fuel →
        ∃ r err, s.List h path pairs fuel = some r ∧ r.err = some err ∧
          err = fmt.Errorf (s.String ++ " List [" ++ path ++ "]: ") e ∧
          err.Is e = true ∧
          r.visited.map Except.ok = (kodo.allEntries pages).map (s.listObject h path) ∧
          r.calls.length = pages.length + 1) ∧
    (∀ (h : azblob.Helpers) (s : azblob.Storage) (path : String) (pairs : types.Pairs)
        (opt : azblob.pairStorageList) (pages : List azblob.ListBlobsFlatSegmentResponse)
        (e : Err) (fuel : Nat),
        h.parseStoragePairList pairs = .ok opt →
        azblob.Answers s opt (h.getAbsPath s path) 0 {} pages →
        (∀ p ∈ pages, p.NextMarker.NotDone = true) →
        (∀ v ∈ azblob.allEntries pages, h.Supported v) →
        s.bucket.ListBlobsFlatSegment pages.length opt.Context (azblob.markerAfter {} pages)
          ⟨h.getAbsPath s path⟩ = .error e →
        pages.length + 1 ≤ fuel →
        ∃ r err, s.List h path pairs fuel = some r ∧ r.err = some err ∧
          err = fmt.Errorf (s.String ++ " List [" ++ path ++ "]: ") e ∧
          err.Is e = true ∧
          r.visited.map Except.ok = (azblob.allEntries pages).map (s.listObject h path) ∧
          r.calls.length = pages.length + 1) := by
  constructor
  · intro h s path pairs opt pages e fuel hparse ha hm hs he hf
    obtain ⟨r, hr, herr, hvis, hcalls⟩ :=
      kodo_List_page_error h s path pairs opt pages e hparse ha hm hs he fuel hf
    exact ⟨r, _, hr, herr, rfl, fmt.Errorf_Is _ e, hvis,
      by simp [hcalls, kodo_callsFor_length]⟩
  · intro h s path pairs opt pages e fuel hparse ha hm hs he hf
    obtain ⟨r, hr, herr, hvis, hcalls⟩ :=
      azblob_List_page_error h s path pairs opt pages e hparse ha hm hs he fuel hf
    exact ⟨r, _, hr, herr, rfl, fmt.Errorf_Is _ e, hvis,
      by simp [hcalls, azblob_callsFor_length]⟩

/-- The example of C2: page 1 is answered, the request for page 2 fails. -/
theorem List_aborts_on_page_error_witness :
    (∃ r err, (kodo.demoStorage (kodo.scriptedBucket
          [.ok kodo.demoPage1, .error (Err.new "backend")] (.error (Err.new "")))).List
          kodo.demoHelpers "" [] 2 = some r ∧ r.err = some err ∧
        err = fmt.Errorf ((kodo.demoStorage (kodo.scriptedBucket
          [.ok kodo.demoPage1, .error (Err.new "backend")] (.error (Err.new "")))).String
            ++ " List [" ++ "" ++ "]: ") (Err.new "backend") ∧
        err.Is (Err.new "backend") = true ∧
        r.visited.map Except.ok =
          (kodo.allEntries [kodo.demoPage1]).map
            ((kodo.demoStorage (kodo.scriptedBucket
              [.ok kodo.demoPage1, .error (Err.new "backend")]
              (.error (Err.new "")))).listObject kodo.demoHelpers "") ∧
        r.calls.length = [kodo.demoPage1].length + 1) ∧
    (∃ r err, (azblob.demoStorage (azblob.scriptedBucket
          [.ok azblob.demoPage1, .error (Err.new "backend")] (.error (Err.new "")))).List
          azblob.demoHelpers "" [] 2 = some r ∧ r.err = some err ∧
        err = fmt.Errorf ((azblob.demoStorage (azblob.scriptedBucket
          [.ok azblob.demoPage1, .error (Err.new "backend")] (.error (Err.new "")))).String
            ++ " List [" ++ "" ++ "]: ") (Err.new "backend") ∧
        err.Is (Err.new "backend") = true ∧
        r.visited.map Except.ok =
          (azblob.allEntries [azblob.demoPage1]).map
            ((azblob.demoStorage (azblob.scriptedBucket
              [.ok azblob.demoPage1, .error (Err.new "backend")]
              (.error (Err.new "")))).listObject azblob.demoHelpers "") ∧
        r.calls.length = [azblob.demoPage1].length + 1) :=
  ⟨List_aborts_on_page_error.1 kodo.demoHelpers _ "" [] {} [kodo.demoPage1]
      (Err.new "backend") 2 rfl ⟨rfl, trivial⟩ (by decide) (by decide) rfl (by decide),
    List_aborts_on_page_error.2 azblob.demoHelpers _ "" [] {} [azblob.demoPage1]
      (Err.new "backend") 2 rfl ⟨rfl, trivial⟩ (by decide) (by decide) rfl (by decide)⟩

/-- C3: when the pages `init` were answered, each with a continuation marker
and supported entries, and the next page holds the entries
`before ++ v :: after` where `before` is supported and the normaliser rejects
the class of `v`, then `List` returns an error that wraps the error of the
normaliser for `v`, the visitor received exactly the objects of the entries
of `init` and of `before` (so neither `v` nor any entry after it), and no page
is requested after the page of `v`. Holds for `kodo` and for `azblob`. -/
theorem List_fails_on_first_unsupported_class :
    (∀ (h : kodo.Helpers) (s : kodo.Storage) (path : String) (pairs : types.Pairs)
        (opt : kodo.pairStorageList) (init : List kodo.ListFilesRet) (page : kodo.ListFilesRet)
        (before after : List kodo.ListItem) (v : kodo.ListItem) (fuel : Nat),
        h.parseStoragePairList pairs = .ok opt →
        kodo.Answers s (h.getAbsPath s path) 0 "" (init ++ [page]) →
        (∀ p ∈ init, p.nextMarker ≠ "") →
        (∀ w ∈ kodo.allEntries init, h.Supported w) →
        page.entries = before ++ v :: after →
        (∀ w ∈ before, h.Supported w) →
        h.storageClassTable v.Kind = none →
        init.length + 1 ≤ fuel →
        ∃ r err e, s.List h path pairs fuel = some r ∧ r.err = some err ∧
          kodo.formatStorageClass h v.Kind = .error e ∧
          err = fmt.Errorf (s.String ++ " List [" ++ path ++ "]: ") e ∧
          err.Is e = true ∧
          r.visited.map Except.ok =
            (kodo.allEntries init ++ before).map (s.listObject h path) ∧
          r.calls.length = init.length + 1) ∧
    (∀ (h : azblob.Helpers) (s : azblob.Storage) (path : String) (pairs : types.Pairs)
        (opt : azblob.pairStorageList) (init : List azblob.ListBlobsFlatSegmentResponse)
        (page : azblob.ListBlobsFlatSegmentResponse)
        (before after : List azblob.BlobItem) (v : azblob.BlobItem) (fuel : Nat),
        h.parseStoragePairList pairs = .ok opt →
        azblob.Answers s opt (h.getAbsPath s path) 0 {} (init ++ [page]) →
        (∀ p ∈ init, p.NextMarker.NotDone = true) →
        (∀ w ∈ azblob.allEntries init, h.Supported w) →
        page.Segment.BlobItems = before ++ v :: after →
        (∀ w ∈ before, h.Supported w) →
        h.storageClassTable v.Properties.AccessTier = none →
        init.length + 1 ≤ fuel →
        ∃ r err e, s.List h path pairs fuel = some r ∧ r.err = some err ∧
          azblob.formatStorageClass h v.Properties.AccessTier = .error e ∧
          err = fmt.Errorf (s.String ++ " List [" ++ path ++ "]: ") e ∧
          err.Is e = true ∧
          r.visited.map Except.ok =
            (azblob.allEntries init ++ before).map (s.listObject h path) ∧
          r.calls.length = init.length + 1) := by
  constructor
  · intro h s path pairs opt init page before after v fuel hparse ha hm hs hpe hb hv hf
    obtain ⟨r, hr, herr, hvis, hcalls⟩ :=
      kodo_List_unsupported h s path pairs opt init page before after v hparse ha hm hs hpe hb
        hv fuel hf
    exact ⟨r, _, types.ErrStorageClassNotSupported, hr, herr,
      by simp [kodo.formatStorageClass, hv], rfl, fmt.Errorf_Is _ _, hvis,
      by simp [hcalls, kodo_callsFor_length]⟩
  · intro h s path pairs opt init page before after v fuel hparse ha hm hs hpe hb hv hf
    obtain ⟨r, hr, herr, hvis, hcalls⟩ :=
      azblob_List_unsupported h s path pairs opt init page before after v hparse ha hm hs hpe
        hb hv fuel hf
    exact ⟨r, _, types.ErrStorageClassNotSupported, hr, herr,
      by simp [azblob.formatStorageClass, hv], rfl, fmt.Errorf_Is _ _, hvis,
      by simp [hcalls, azblob_callsFor_length]⟩

/-- The example of C3: page 1 is answered, page 2 holds the entries `b`, `c`
and `d`, and the class of `c` is outside the table. -/
theorem List_fails_on_first_unsupported_class_witness :
    (∃ r err e, (kodo.demoStorage (kodo.scriptedBucket
          [.ok kodo.demoPage1, .ok kodo.demoBadPage, .ok kodo.demoPage2]
          (.error (Err.new "")))).List kodo.demoHelpers "" [] 3 = some r ∧ r.err = some err ∧
        kodo.formatStorageClass kodo.demoHelpers 9 = .error e ∧
        err = fmt.Errorf ((kodo.demoStorage (kodo.scriptedBucket
          [.ok kodo.demoPage1, .ok kodo.demoBadPage, .ok kodo.demoPage2]
          (.error (Err.new "")))).String ++ " List [" ++ "" ++ "]: ") e ∧
        err.Is e = true ∧
        r.visited.map Except.ok =
          (kodo.allEntries [kodo.demoPage1] ++ [({ Key := "b" } : kodo.ListItem)]).map
            ((kodo.demoStorage (kodo.scriptedBucket
              [.ok kodo.demoPage1, .ok kodo.demoBadPage, .ok kodo.demoPage2]
              (.error (Err.new "")))).listObject kodo.demoHelpers "") ∧
        r.calls.length = [kodo.demoPage1].length + 1) ∧
    (∃ r err e, (azblob.demoStorage (azblob.scriptedBucket
          [.ok azblob.demoPage1, .ok azblob.demoBadPage, .ok azblob.demoPage2]
          (.error (Err.new "")))).List azblob.demoHelpers "" [] 3 = some r ∧
        r.err = some err ∧
        azblob.formatStorageClass azblob.demoHelpers "xxxx" = .error e ∧
        err = fmt.Errorf ((azblob.demoStorage (azblob.scriptedBucket
          [.ok azblob.demoPage1, .ok azblob.demoBadPage, .ok azblob.demoPage2]
          (.error (Err.new "")))).String ++ " List [" ++ "" ++ "]: ") e ∧
        err.Is e = true ∧
        r.visited.map Except.ok =
          (azblob.allEntries [azblob.demoPage1] ++
              [({ Name := "b", Properties := { AccessTier := "Cool" } } : azblob.BlobItem)]).map
            ((azblob.demoStorage (azblob.scriptedBucket
              [.ok azblob.demoPage1, .ok azblob.demoBadPage, .ok azblob.demoPage2]
              (.error (Err.new "")))).listObject azblob.demoHelpers "") ∧
        r.calls.length = [azblob.demoPage1].length + 1) :=
  ⟨List_fails_on_first_unsupported_class.1 kodo.demoHelpers _ "" [] {} [kodo.demoPage1]
      kodo.demoBadPage [{ Key := "b" }] [{ Key := "d" }] { Key := "c", Kind := 9 } 3
      rfl ⟨rfl, rfl, trivial⟩ (by decide) (by decide) rfl (by decide) rfl (by decide),
    List_fails_on_first_unsupported_class.2 azblob.demoHelpers _ "" [] {} [azblob.demoPage1]
      azblob.demoBadPage [{ Name := "b", Properties := { AccessTier := "Cool" } }]
      [{ Name := "d", Properties := { AccessTier := "Hot" } }]
      { Name := "c", Properties := { AccessTier := "xxxx" } } 3
      rfl ⟨rfl, rfl, trivial⟩ (by decide) (by decide) rfl (by decide) rfl (by decide)⟩

/-- C4: when the stat call of the backend succeeds and reports a class
identifier outside the mapping table, `Stat` returns a nil Object together
with an error for which `errors.Is(err, ErrStorageClassNotSupported)` holds.
Holds for `kodo` and for `azblob`. -/
theorem Stat_fails_on_unsupported_class :
    (∀ (h : kodo.Helpers) (s : kodo.Storage) (path : String) (pairs : types.Pairs)
        (fi : kodo.FileInfo),
        s.bucket.Stat s.name (h.getAbsPath s path) = .ok fi →
        h.storageClassTable fi.Kind = none →
        ∃ err, s.Stat h path pairs = (none, some err) ∧
          err.Is types.ErrStorageClassNotSupported = true) ∧
    (∀ (h : azblob.Helpers) (s : azblob.Storage) (path : String) (pairs : types.Pairs)
        (opt : azblob.pairStorageStat) (output : azblob.BlobGetPropertiesResponse),
        h.parseStoragePairStat pairs = .ok opt →
        s.bucket.GetProperties (h.getAbsPath s path) opt.Context = .ok output →
        h.storageClassTable output.AccessTier = none →
        ∃ err, s.Stat h path pairs = (none, some err) ∧
          err.Is types.ErrStorageClassNotSupported = true) := by
  constructor
  · intro h s path pairs fi hstat hv
    exact ⟨_, kodo_Stat_unsupported h s path pairs fi hstat hv, fmt.Errorf_Is _ _⟩
  · intro h s path pairs opt output hparse hstat hv
    exact ⟨_, azblob_Stat_unsupported h s path pairs opt output hparse hstat hv,
      fmt.Errorf_Is _ _⟩

/-- The example of C4: the backend reports the class `9` (kodo) and the tier
`xxxx` (azblob) for `test_src`. -/
theorem Stat_fails_on_unsupported_class_witness :
    (∃ err, (kodo.demoStorage (kodo.scriptedBucket [] (.ok { Kind := 9 }))).Stat
        kodo.demoHelpers "test_src" [] = (none, some err) ∧
      err.Is types.ErrStorageClassNotSupported = true) ∧
    (∃ err, (azblob.demoStorage (azblob.scriptedBucket []
        (.ok { ContentLength := 100, AccessTier := "xxxx" }))).Stat
        azblob.demoHelpers "test_src" [] = (none, some err) ∧
      err.Is types.ErrStorageClassNotSupported = true) :=
  ⟨Stat_fails_on_unsupported_class.1 kodo.demoHelpers _ "test_src" [] { Kind := 9 } rfl rfl,
    Stat_fails_on_unsupported_class.2 azblob.demoHelpers _ "test_src" [] {}
      { ContentLength := 100, AccessTier := "xxxx" } rfl rfl rfl⟩

/-! ## Segments: the properties -/

/-- C5: for every tracking table and every ID that is not a key of it, each
of `CompleteSegment`, `WriteSegment` and `AbortSegment` fails with
`SegmentNotInitiated` (`errors.Is` holds), issues no backend call and leaves
the tracking table exactly as it was. -/
theorem segment_operations_reject_unknown_id (s : qingstor.Storage) (id : String)
    (hid : id ∉ s.segments) :
    (∃ err, (s.CompleteSegment id).err = some err ∧
        err.Is segment.ErrSegmentNotInitiated = true) ∧
      (s.CompleteSegment id).calls = [] ∧ (s.CompleteSegment id).segments = s.segments ∧
    (∀ (offset size : Int) (r : qingstor.Reader),
      (∃ err, (s.WriteSegment id offset size r).err = some err ∧
          err.Is segment.ErrSegmentNotInitiated = true) ∧
        (s.WriteSegment id offset size r).calls = [] ∧
        (s.WriteSegment id offset size r).segments = s.segments) ∧
    (∃ err, (s.AbortSegment id).err = some err ∧
        err.Is segment.ErrSegmentNotInitiated = true) ∧
      (s.AbortSegment id).calls = [] ∧ (s.AbortSegment id).segments = s.segments := by
  have hl : s.segments.lookup id = none := AList.lookup_eq_none.mpr hid
  have hc : s.CompleteSegment id =
      ⟨some (fmt.Errorf ("CompleteSegment [" ++ id ++ "]: ") segment.ErrSegmentNotInitiated),
        s.segments, []⟩ := by
    simp [qingstor.Storage.CompleteSegment, hl]
  have hw : ∀ (offset size : Int) (r : qingstor.Reader), s.WriteSegment id offset size r =
      ⟨some (fmt.Errorf ("WriteSegment [" ++ id ++ "]: ") segment.ErrSegmentNotInitiated),
        s.segments, []⟩ := by
    intro offset size r
    simp [qingstor.Storage.WriteSegment, hl]
  have ha : s.AbortSegment id =
      ⟨some (fmt.Errorf ("AbortSegment [" ++ id ++ "]: ") segment.ErrSegmentNotInitiated),
        s.segments, []⟩ := by
    simp [qingstor.Storage.AbortSegment, hl]
  rw [hc, ha]
  refine ⟨⟨_, rfl, fmt.Errorf_Is _ _⟩, rfl, rfl, fun offset size r => ?_,
    ⟨_, rfl, fmt.Errorf_Is _ _⟩, rfl, rfl⟩
  rw [hw]
  exact ⟨⟨_, rfl, fmt.Errorf_Is _ _⟩, rfl, rfl⟩

/-- The example of C5: the ID `u9` on the table that tracks `u1` and `u2`. -/
theorem segment_operations_reject_unknown_id_witness :
    (∃ err, (qingstor.Storage.CompleteSegment ⟨qingstor.okBucket, qingstor.demoSegments⟩
          "u9").err = some err ∧ err.Is segment.ErrSegmentNotInitiated = true) ∧
      (qingstor.Storage.CompleteSegment ⟨qingstor.okBucket, qingstor.demoSegments⟩
          "u9").calls = [] ∧
      (qingstor.Storage.CompleteSegment ⟨qingstor.okBucket, qingstor.demoSegments⟩
          "u9").segments = qingstor.demoSegments ∧
    (∀ (offset size : Int) (r : qingstor.Reader),
      (∃ err, (qingstor.Storage.WriteSegment ⟨qingstor.okBucket, qingstor.demoSegments⟩
            "u9" offset size r).err = some err ∧
          err.Is segment.ErrSegmentNotInitiated = true) ∧
        (qingstor.Storage.WriteSegment ⟨qingstor.okBucket, qingstor.demoSegments⟩
            "u9" offset size r).calls = [] ∧
        (qingstor.Storage.WriteSegment ⟨qingstor.okBucket, qingstor.demoSegments⟩
            "u9" offset size r).segments = qingstor.demoSegments) ∧
    (∃ err, (qingstor.Storage.AbortSegment ⟨qingstor.okBucket, qingstor.demoSegments⟩
          "u9").err = some err ∧ err.Is segment.ErrSegmentNotInitiated = true) ∧
      (qingstor.Storage.AbortSegment ⟨qingstor.okBucket, qingstor.demoSegments⟩
          "u9").calls = [] ∧
      (qingstor.Storage.AbortSegment ⟨qingstor.okBucket, qingstor.demoSegments⟩
          "u9").segments = qingstor.demoSegments :=
  segment_operations_reject_unknown_id ⟨qingstor.okBucket, qingstor.demoSegments⟩ "u9"
    (by decide)

/-- C6: for every tracked Segment whose part map is empty,
`CompleteSegment` fails with `SegmentPartsEmpty` (`errors.Is` holds), issues
no backend call, and leaves the tracking table unchanged, so that the Segment
is still tracked. -/
theorem CompleteSegment_rejects_empty_parts (s : qingstor.Storage) (id : String)
    (seg : segment.Segment) (hl : s.segments.lookup id = some seg)
    (hempty : seg.Parts = ∅) :
    (∃ err, (s.CompleteSegment id).err = some err ∧
        err.Is segment.ErrSegmentPartsEmpty = true) ∧
      (s.CompleteSegment id).calls = [] ∧
      (s.CompleteSegment id).segments = s.segments ∧
      (s.CompleteSegment id).segments.lookup id = some seg := by
  have hc : s.CompleteSegment id =
      ⟨some (fmt.Errorf ("CompleteSegment [" ++ id ++ "]: ") segment.ErrSegmentPartsEmpty),
        s.segments, []⟩ := by
    simp [qingstor.Storage.CompleteSegment, hl, hempty]
  rw [hc]
  exact ⟨⟨_, rfl, fmt.Errorf_Is _ _⟩, rfl, rfl, hl⟩

/-- The example of C6: the fresh upload `u1`, which has no part. -/
theorem CompleteSegment_rejects_empty_parts_witness :
    (∃ err, (qingstor.Storage.CompleteSegment ⟨qingstor.okBucket, qingstor.demoSegments⟩
          "u1").err = some err ∧ err.Is segment.ErrSegmentPartsEmpty = true) ∧
      (qingstor.Storage.CompleteSegment ⟨qingstor.okBucket, qingstor.demoSegments⟩
          "u1").calls = [] ∧
      (qingstor.Storage.CompleteSegment ⟨qingstor.okBucket, qingstor.demoSegments⟩
          "u1").segments = qingstor.demoSegments ∧
      (qingstor.Storage.CompleteSegment ⟨qingstor.okBucket, qingstor.demoSegments⟩
          "u1").segments.lookup "u1" = some (segment.NewSegment "a/b" "u1" 5) :=
  CompleteSegment_rejects_empty_parts ⟨qingstor.okBucket, qingstor.demoSegments⟩ "u1"
    (segment.NewSegment "a/b" "u1" 5) rfl rfl

/-- C7: for every tracked Segment `id`, after `CompleteSegment(id)` succeeds,
and after `AbortSegment(id)` runs (whatever the backend answers), `id` is
absent from the tracking table, every other entry of the table is unchanged
and the table has exactly one key fewer. -/
theorem terminated_segment_leaves_table (s : qingstor.Storage) (id : String)
    (seg : segment.Segment) (hl : s.segments.lookup id = some seg) :
    ((s.CompleteSegment id).err = none →
      (s.CompleteSegment id).segments.lookup id = none ∧
      (∀ other, other ≠ id →
        (s.CompleteSegment id).segments.lookup other = s.segments.lookup other) ∧
      (s.CompleteSegment id).segments.keys.length + 1 = s.segments.keys.length) ∧
    ((s.AbortSegment id).segments.lookup id = none ∧
      (∀ other, other ≠ id →
        (s.AbortSegment id).segments.lookup other = s.segments.lookup other) ∧
      (s.AbortSegment id).segments.keys.length + 1 = s.segments.keys.length) := by
  have hlen := qingstor.keys_length_erase s.segments id seg hl
  constructor
  · intro hok
    have hseg : (s.CompleteSegment id).segments = s.segments.erase id := by
      unfold qingstor.Storage.CompleteSegment at hok ⊢
      simp only [hl] at hok ⊢
      split at hok
      · simp [fmt.Errorf] at hok
      · split at hok
        · simp [fmt.Errorf] at hok
        · rename_i hne _ hb
          simp [hne, hb]
    rw [hseg]
    exact ⟨AList.lookup_erase id _, fun other ho => AList.lookup_erase_ne ho, hlen⟩
  · have hseg : (s.AbortSegment id).segments = s.segments.erase id := by
      unfold qingstor.Storage.AbortSegment
      simp only [hl]
      split <;> rfl
    rw [hseg]
    exact ⟨AList.lookup_erase id _, fun other ho => AList.lookup_erase_ne ho, hlen⟩

/-- The example of C7: the upload `u2`, which holds one part, on a backend
that accepts the finalize call. -/
theorem terminated_segment_leaves_table_witness :
    ((qingstor.Storage.CompleteSegment ⟨qingstor.okBucket, qingstor.demoSegments⟩
          "u2").segments.lookup "u2" = none ∧
      (∀ other, other ≠ "u2" →
        (qingstor.Storage.CompleteSegment ⟨qingstor.okBucket, qingstor.demoSegments⟩
          "u2").segments.lookup other = qingstor.demoSegments.lookup other) ∧
      (qingstor.Storage.CompleteSegment ⟨qingstor.okBucket, qingstor.demoSegments⟩
          "u2").segments.keys.length + 1 = qingstor.demoSegments.keys.length) ∧
    ((qingstor.Storage.AbortSegment ⟨qingstor.okBucket, qingstor.demoSegments⟩
          "u2").segments.lookup "u2" = none ∧
      (∀ other, other ≠ "u2" →
        (qingstor.Storage.AbortSegment ⟨qingstor.okBucket, qingstor.demoSegments⟩
          "u2").segments.lookup other = qingstor.demoSegments.lookup other) ∧
      (qingstor.Storage.AbortSegment ⟨qingstor.okBucket, qingstor.demoSegments⟩
          "u2").segments.keys.length + 1 = qingstor.demoSegments.keys.length) :=
  ⟨(terminated_segment_leaves_table ⟨qingstor.okBucket, qingstor.demoSegments⟩ "u2"
      { ID := "u2", Path := "c", Parts := AList.singleton 0 ⟨0, 1⟩ } rfl).1 rfl,
    (terminated_segment_leaves_table ⟨qingstor.okBucket, qingstor.demoSegments⟩ "u2"
      { ID := "u2", Path := "c", Parts := AList.singleton 0 ⟨0, 1⟩ } rfl).2⟩

/-- C8: for every tracked Segment `id`, offset `o` and sizes `s1`, `s2`:
after a successful `WriteSegment(id, o, s1, _)` followed by a successful
`WriteSegment(id, o, s2, _)` (the backend may have changed in between), the
part map of the Segment holds exactly one Part at offset `o`, that Part is
`{Offset: o, Size: s2}`, and the parts at all other offsets are as they were
before the two writes. -/
theorem rewriting_an_offset_keeps_one_part (s : qingstor.Storage) (bucket2 : qingstor.Bucket)
    (id : String) (seg : segment.Segment) (o s1 s2 : Int) (r1 r2 : qingstor.Reader)
    (hl : s.segments.lookup id = some seg)
    (h1 : (s.WriteSegment id o s1 r1).err = none)
    (h2 : (qingstor.Storage.WriteSegment ⟨bucket2, (s.WriteSegment id o s1 r1).segments⟩
      id o s2 r2).err = none) :
    ∃ seg2, (qingstor.Storage.WriteSegment ⟨bucket2, (s.WriteSegment id o s1 r1).segments⟩
        id o s2 r2).segments.lookup id = some seg2 ∧
      seg2.Parts.lookup o = some ⟨o, s2⟩ ∧
      seg2.Parts.keys.count o = 1 ∧
      ∀ o', o' ≠ o → seg2.Parts.lookup o' = seg.Parts.lookup o' := by
  have e1 := qingstor.WriteSegment_of_ok s id o s1 r1 seg hl h1
  have hl1 : (s.WriteSegment id o s1 r1).segments.lookup id =
      some { seg with Parts := seg.Parts.insert o ⟨o, s1⟩ } := by
    rw [e1, AList.lookup_insert]
  have e2 := qingstor.WriteSegment_of_ok ⟨bucket2, (s.WriteSegment id o s1 r1).segments⟩ id o
    s2 r2 _ hl1 h2
  refine ⟨_, by rw [e2, AList.lookup_insert], ?_, ?_, ?_⟩
  · simp [AList.lookup_insert]
  · apply List.count_eq_one_of_mem (AList.keys_nodup _)
    simp [AList.keys_insert]
  · intro o' ho'
    simp [AList.lookup_insert_ne ho']

/-- The example of C8: sizes 5 and then 7 at offset 0 of the upload `u2`. -/
theorem rewriting_an_offset_keeps_one_part_witness :
    ∃ seg2, (qingstor.Storage.WriteSegment ⟨qingstor.okBucket,
        (qingstor.Storage.WriteSegment ⟨qingstor.okBucket, qingstor.demoSegments⟩
          "u2" 0 5 []).segments⟩ "u2" 0 7 []).segments.lookup "u2" = some seg2 ∧
      seg2.Parts.lookup 0 = some ⟨0, 7⟩ ∧
      seg2.Parts.keys.count 0 = 1 ∧
      ∀ o', o' ≠ 0 → seg2.Parts.lookup o' =
        (AList.singleton 0 ⟨0, 1⟩ : segment.Parts).lookup o' :=
  rewriting_an_offset_keeps_one_part ⟨qingstor.okBucket, qingstor.demoSegments⟩
    qingstor.okBucket "u2" { ID := "u2", Path := "c", Parts := AList.singleton 0 ⟨0, 1⟩ }
    0 5 7 [] [] rfl rfl rfl

/-- C9: a part map built by `WriteSegment` files every part under its own
offset (a new Segment does, and a successful write keeps it so and leaves the
map non-empty); and for every tracked Segment with such a non-empty part map,
in whatever order its parts were written (the entries of the map may stand in
any order), the part list that `CompleteSegment` hands to the finalize call of
the backend is a rearrangement of the parts of the map (each part exactly
once) and is strictly ascending by offset. -/
theorem CompleteSegment_finalizes_parts_ascending :
    (∀ (path id : String) (partSize : Int),
      (segment.NewSegment path id partSize).KeyedByOffset) ∧
    (∀ (s : qingstor.Storage) (id : String) (seg : segment.Segment) (offset size : Int)
        (r : qingstor.Reader),
      s.segments.lookup id = some seg → seg.KeyedByOffset →
      (s.WriteSegment id offset size r).err = none →
      ∃ written, (s.WriteSegment id offset size r).segments.lookup id = some written ∧
        written.KeyedByOffset ∧ written.Parts ≠ ∅) ∧
    (∀ (s : qingstor.Storage) (id : String) (seg : segment.Segment),
      s.segments.lookup id = some seg → seg.Parts ≠ ∅ → seg.KeyedByOffset →
      ∃ parts, (s.CompleteSegment id).calls =
          [qingstor.Call.CompleteMultipartUpload seg.Path ⟨seg.ID, parts⟩] ∧
        parts.Perm seg.parts ∧
        parts.Pairwise (fun a b => a.Offset < b.Offset)) := by
  refine ⟨?_, ?_, ?_⟩
  · intro path id partSize e he
    simp [segment.NewSegment] at he
  · intro s id seg offset size r hl hk hok
    refine ⟨_, ?_, segment.KeyedByOffset_insert seg hk offset size, ?_⟩
    · rw [qingstor.WriteSegment_of_ok s id offset size r seg hl hok, AList.lookup_insert]
    · intro h
      have := congrArg (fun m => AList.lookup offset m) h
      simp [AList.lookup_insert] at this
  · intro s id seg hl hne hk
    have hlen : seg.Parts.entries.length ≠ 0 := by
      intro h0
      exact hne (AList.ext (by simpa using List.length_eq_zero.mp h0))
    refine ⟨seg.SortedParts, ?_, segment.SortedParts_perm seg,
      segment.SortedParts_strict seg hk⟩
    unfold qingstor.Storage.CompleteSegment
    simp only [hl, hlen, if_false]
    split <;> rfl

/-- The example of C9: parts written at offset 0 and then at offset 5, which
the part map holds in the order `[offset 5, offset 0]`, are finalized as
`[offset 0, offset 5]`. -/
theorem CompleteSegment_finalizes_parts_ascending_witness :
    (∃ written, (qingstor.Storage.WriteSegment ⟨qingstor.okBucket, qingstor.demoSegments⟩
          "u1" 0 5 []).segments.lookup "u1" = some written ∧
        written.KeyedByOffset ∧ written.Parts ≠ ∅) ∧
    (∃ parts, (qingstor.Storage.CompleteSegment ⟨qingstor.okBucket, qingstor.demoWritten⟩
          "u1").calls = [qingstor.Call.CompleteMultipartUpload "a/b" ⟨"u1", parts⟩] ∧
        parts.Perm [⟨5, 5⟩, ⟨0, 5⟩] ∧
        parts.Pairwise (fun a b => a.Offset < b.Offset)) ∧
      (qingstor.Storage.CompleteSegment ⟨qingstor.okBucket, qingstor.demoWritten⟩ "u1").calls =
        [qingstor.Call.CompleteMultipartUpload "a/b" ⟨"u1", [⟨0, 5⟩, ⟨5, 5⟩]⟩] :=
  ⟨CompleteSegment_finalizes_parts_ascending.2.1 ⟨qingstor.okBucket, qingstor.demoSegments⟩
      "u1" (segment.NewSegment "a/b" "u1" 5) 0 5 [] rfl
      (CompleteSegment_finalizes_parts_ascending.1 "a/b" "u1" 5) rfl,
    CompleteSegment_finalizes_parts_ascending.2.2 ⟨qingstor.okBucket, qingstor.demoWritten⟩
      "u1"
      { ID := "u1", Path := "a/b", PartSize := 5,
        Parts := (AList.singleton 0 ⟨0, 5⟩).insert 5 ⟨5, 5⟩ }
      rfl (fun h => absurd (congrArg (fun m => m.keys.length) h) (by decide)) (by decide),
    rfl⟩

/-! ## The type of the listed objects -/

/-- C10 (the code differs): `List` builds every object with
`Type: types.ObjectTypeDir`. A listing whose only page holds the key `a`, a
file, hands the file visitor an object named `a` of type `dir`, not `file`;
and whatever the entry, an object that `List` builds has the type `dir`.
Evaluated for `kodo` and for `azblob`. -/
theorem List_delivers_keys_with_type_dir :
    ((kodo.demoStorage (kodo.scriptedBucket
        [.ok { entries := [{ Key := "a" }], nextMarker := "" }] (.error (Err.new "")))).List
        kodo.demoHelpers "" [] 1).map (fun r => r.visited.map (fun o => (o.Name, o.Kind))) =
      some [("a", "dir")] ∧
    ((azblob.demoStorage (azblob.scriptedBucket
        [.ok { Segment := ⟨[{ Name := "a", Properties := { AccessTier := "Hot" } }]⟩,
               NextMarker := ⟨some ""⟩ }] (.error (Err.new "")))).List
        azblob.demoHelpers "" [] 1).map (fun r => r.visited.map (fun o => (o.Name, o.Kind))) =
      some [("a", "dir")] ∧
    types.ObjectTypeDir ≠ types.ObjectTypeFile ∧
    (∀ (h : kodo.Helpers) (s : kodo.Storage) (path : String) (v : kodo.ListItem),
      match s.listObject h path v with
      | .ok o => o.Kind = types.ObjectTypeDir
      | .error _ => True) ∧
    (∀ (h : azblob.Helpers) (s : azblob.Storage) (path : String) (v : azblob.BlobItem),
      match s.listObject h path v with
      | .ok o => o.Kind = types.ObjectTypeDir
      | .error _ => True) := by
  refine ⟨by decide, by decide, by decide, ?_, ?_⟩
  · intro h s path v
    unfold kodo.Storage.listObject
    cases kodo.formatStorageClass h v.Kind <;> simp [types.Object.SetStorageClass,
      types.Object.SetETag, types.Object.SetContentType]
  · intro h s path v
    unfold azblob.Storage.listObject
    cases azblob.formatStorageClass h v.Properties.AccessTier <;>
      simp [types.Object.SetStorageClass, types.Object.SetContentMD5,
        types.Object.SetContentType]

/-! ## Listing: the requests of a run -/

theorem kodo_listLoop_requests (h : kodo.Helpers) (s : kodo.Storage) (path rp : String) :
    ∀ (fuel n : Nat) (marker : String) (r : ListRun kodo.ListFilesCall),
      s.listLoop h path rp fuel n marker = some r →
      ∃ (pages : List kodo.ListFilesRet) (last : Except Err kodo.ListFilesRet),
        kodo.responses s n r.calls = pages.map Except.ok ++ [last] ∧
        r.calls.map (fun c => c.marker) = marker :: pages.map (fun p => p.nextMarker) ∧
        ∀ c ∈ r.calls, c.pfx = rp
  | 0, _, _, _, hr => by simp [kodo.Storage.listLoop] at hr
  | fuel + 1, n, marker, r, hr => by
    rw [kodo.Storage.listLoop] at hr
    cases hb : s.bucket.ListFiles n s.name rp "" marker 1000 with
    | error e =>
      simp only [hb, Option.some.injEq] at hr
      subst hr
      exact ⟨[], .error e, by simp [kodo.responses, hb], by simp, by simp⟩
    | ok ret =>
      simp only [hb] at hr
      have one : ∀ vis err, r = ⟨err, vis, [⟨s.name, rp, "", marker, 1000⟩]⟩ →
          ∃ (pages : List kodo.ListFilesRet) (last : Except Err kodo.ListFilesRet),
            kodo.responses s n r.calls = pages.map Except.ok ++ [last] ∧
            r.calls.map (fun c => c.marker) = marker :: pages.map (fun p => p.nextMarker) ∧
            ∀ c ∈ r.calls, c.pfx = rp := by
        intro vis err hre
        subst hre
        exact ⟨[], .ok ret, by simp [kodo.responses, hb], by simp, by simp⟩
      split at hr
      · exact one _ _ (Option.some.inj hr).symm
      · split at hr
        · exact one _ _ (Option.some.inj hr).symm
        · obtain ⟨r', hr', hre⟩ := Option.map_eq_some'.mp hr
          obtain ⟨pages, last, h1, h2, h3⟩ :=
            kodo_listLoop_requests h s path rp fuel (n + 1) ret.nextMarker r' hr'
          subst hre
          refine ⟨ret :: pages, last, ?_, ?_, ?_⟩
          · simp [kodo.responses, hb, h1]
          · simp [h2]
          · intro c hc
            rcases List.mem_cons.mp hc with rfl | hc
            · rfl
            · exact h3 c hc

theorem azblob_listLoop_requests (h : azblob.Helpers) (s : azblob.Storage)
    (opt : azblob.pairStorageList) (path rp : String) :
    ∀ (fuel n : Nat) (marker : azblob.Marker) (r : ListRun azblob.ListBlobsCall),
      s.listLoop h opt path rp fuel n marker = some r →
      ∃ (pages : List azblob.ListBlobsFlatSegmentResponse)
        (last : Except Err azblob.ListBlobsFlatSegmentResponse),
        azblob.responses s n r.calls = pages.map Except.ok ++ [last] ∧
        r.calls.map (fun c => c.marker) = marker :: pages.map (fun p => p.NextMarker) ∧
        ∀ c ∈ r.calls, c.o.Prefix = rp
  | 0, _, _, _, hr => by simp [azblob.Storage.listLoop] at hr
  | fuel + 1, n, marker, r, hr => by
    rw [azblob.Storage.listLoop] at hr
    cases hb : s.bucket.ListBlobsFlatSegment n opt.Context marker ⟨rp⟩ with
    | error e =>
      simp only [hb, Option.some.injEq] at hr
      subst hr
      exact ⟨[], .error e, by simp [azblob.responses, hb], by simp, by simp⟩
    | ok output =>
      simp only [hb] at hr
      have one : ∀ vis err, r = ⟨err, vis, [⟨opt.Context, marker, ⟨rp⟩⟩]⟩ →
          ∃ (pages : List azblob.ListBlobsFlatSegmentResponse)
            (last : Except Err azblob.ListBlobsFlatSegmentResponse),
            azblob.responses s n r.calls = pages.map Except.ok ++ [last] ∧
            r.calls.map (fun c => c.marker) = marker :: pages.map (fun p => p.NextMarker) ∧
            ∀ c ∈ r.calls, c.o.Prefix = rp := by
        intro vis err hre
        subst hre
        exact ⟨[], .ok output, by simp [azblob.responses, hb], by simp, by simp⟩
      split at hr
      · exact one _ _ (Option.some.inj hr).symm
      · split at hr
        · exact one _ _ (Option.some.inj hr).symm
        · obtain ⟨r', hr', hre⟩ := Option.map_eq_some'.mp hr
          obtain ⟨pages, last, h1, h2, h3⟩ :=
            azblob_listLoop_requests h s opt path rp fuel (n + 1) output.NextMarker r' hr'
          subst hre
          refine ⟨output :: pages, last, ?_, ?_, ?_⟩
          · simp [azblob.responses, hb, h1]
          · simp [h2]
          · intro c hc
            rcases List.mem_cons.mp hc with rfl | hc
            · rfl
            · exact h3 c hc

/-- The requests answered with a page, among answers that are pages but for
the last. -/
theorem count_pages_of_answers {α : Type} (pages : List α) (last : Except Err α) :
    (((pages.map Except.ok ++ [last]).filter (fun (a : Except Err α) => a.isOk)).length +
      (if last.isOk then 0 else 1)) = pages.length + 1 := by
  have hp : (pages.map (Except.ok : α → Except Err α)).filter
      (fun (a : Except Err α) => a.isOk) = pages.map Except.ok := by
    apply List.filter_eq_self.mpr
    intro a ha
    obtain ⟨p, _, rfl⟩ := List.mem_map.mp ha
    rfl
  rw [List.filter_append, hp]
  cases last <;> simp [Except.isOk, Except.toBool]

/-- C16, as amended: for every `List` call that returns, no request is sent
when the options do not parse; otherwise the requests were answered by the
pages `pages` and then by `last` (a page or an error), the first request
carries the start marker and each later one the marker of the page before it,
every request carries the backend-absolute path of the argument as its
prefix, and the number of requests is the number of pages consumed, plus one
when the last request was answered with an error. Holds for `kodo` and for
`azblob`. -/
theorem List_requests_follow_the_markers :
    (∀ (h : kodo.Helpers) (s : kodo.Storage) (path : String) (pairs : types.Pairs)
        (fuel : Nat) (r : ListRun kodo.ListFilesCall),
        s.List h path pairs fuel = some r →
        (∀ err, h.parseStoragePairList pairs = .error err → r.calls = []) ∧
        (∀ opt, h.parseStoragePairList pairs = .ok opt →
          ∃ (pages : List kodo.ListFilesRet) (last : Except Err kodo.ListFilesRet),
            kodo.responses s 0 r.calls = pages.map Except.ok ++ [last] ∧
            r.calls.map (fun c => c.marker) = "" :: pages.map (fun p => p.nextMarker) ∧
            (∀ c ∈ r.calls, c.pfx = h.getAbsPath s path) ∧
            r.calls.length = kodo.pagesConsumed s r.calls + (if last.isOk then 0 else 1))) ∧
    (∀ (h : azblob.Helpers) (s : azblob.Storage) (path : String) (pairs : types.Pairs)
        (fuel : Nat) (r : ListRun azblob.ListBlobsCall),
        s.List h path pairs fuel = some r →
        (∀ err, h.parseStoragePairList pairs = .error err → r.calls = []) ∧
        (∀ opt, h.parseStoragePairList pairs = .ok opt →
          ∃ (pages : List azblob.ListBlobsFlatSegmentResponse)
            (last : Except Err azblob.ListBlobsFlatSegmentResponse),
            azblob.responses s 0 r.calls = pages.map Except.ok ++ [last] ∧
            r.calls.map (fun c => c.marker) =
              ({} : azblob.Marker) :: pages.map (fun p => p.NextMarker) ∧
            (∀ c ∈ r.calls, c.o.Prefix = h.getAbsPath s path) ∧
            r.calls.length =
              azblob.pagesConsumed s r.calls + (if last.isOk then 0 else 1))) := by
  constructor
  · intro h s path pairs fuel r hr
    constructor
    · intro err hp
      simp only [kodo.Storage.List, hp, Option.some.injEq] at hr
      subst hr
      rfl
    · intro opt hp
      simp only [kodo.Storage.List, hp] at hr
      obtain ⟨pages, last, h1, h2, h3⟩ :=
        kodo_listLoop_requests h s path _ fuel 0 "" r hr
      refine ⟨pages, last, h1, h2, h3, ?_⟩
      have hlen : r.calls.length = pages.length + 1 := by
        simpa using congrArg List.length h2
      rw [kodo.pagesConsumed, h1, count_pages_of_answers, hlen]
  · intro h s path pairs fuel r hr
    constructor
    · intro err hp
      simp only [azblob.Storage.List, hp, Option.some.injEq] at hr
      subst hr
      rfl
    · intro opt hp
      simp only [azblob.Storage.List, hp] at hr
      obtain ⟨pages, last, h1, h2, h3⟩ :=
        azblob_listLoop_requests h s opt path _ fuel 0 {} r hr
      refine ⟨pages, last, h1, h2, h3, ?_⟩
      have hlen : r.calls.length = pages.length + 1 := by
        simpa using congrArg List.length h2
      rw [azblob.pagesConsumed, h1, count_pages_of_answers, hlen]

/-- The example of C16, as amended: the listing of two pages, the first with
marker `m1`. -/
theorem List_requests_follow_the_markers_witness :
    (∃ (pages : List kodo.ListFilesRet) (last : Except Err kodo.ListFilesRet),
      kodo.responses (kodo.demoStorage (kodo.scriptedBucket
          [.ok kodo.demoPage1, .ok kodo.demoPage2] (.error (Err.new ""))))
          0 (kodo.callsFor (kodo.demoStorage (kodo.scriptedBucket
          [.ok kodo.demoPage1, .ok kodo.demoPage2] (.error (Err.new "")))) "" ""
            [kodo.demoPage1, kodo.demoPage2]) = pages.map Except.ok ++ [last] ∧
      (kodo.callsFor (kodo.demoStorage (kodo.scriptedBucket
          [.ok kodo.demoPage1, .ok kodo.demoPage2] (.error (Err.new "")))) "" ""
            [kodo.demoPage1, kodo.demoPage2]).map (fun c => c.marker) =
        "" :: pages.map (fun p => p.nextMarker) ∧
      (∀ c ∈ kodo.callsFor (kodo.demoStorage (kodo.scriptedBucket
          [.ok kodo.demoPage1, .ok kodo.demoPage2] (.error (Err.new "")))) "" ""
            [kodo.demoPage1, kodo.demoPage2], c.pfx = "") ∧
      2 = kodo.pagesConsumed (kodo.demoStorage (kodo.scriptedBucket
          [.ok kodo.demoPage1, .ok kodo.demoPage2] (.error (Err.new ""))))
          (kodo.callsFor (kodo.demoStorage (kodo.scriptedBucket
          [.ok kodo.demoPage1, .ok kodo.demoPage2] (.error (Err.new "")))) "" ""
            [kodo.demoPage1, kodo.demoPage2]) + (if last.isOk then 0 else 1)) ∧
    (∃ (pages : List azblob.ListBlobsFlatSegmentResponse)
      (last : Except Err azblob.ListBlobsFlatSegmentResponse),
      azblob.responses (azblob.demoStorage (azblob.scriptedBucket
          [.ok azblob.demoPage1, .ok azblob.demoPage2] (.error (Err.new ""))))
          0 (azblob.callsFor {} "" {} [azblob.demoPage1, azblob.demoPage2]) =
        pages.map Except.ok ++ [last] ∧
      (azblob.callsFor {} "" {} [azblob.demoPage1, azblob.demoPage2]).map
          (fun c => c.marker) = ({} : azblob.Marker) :: pages.map (fun p => p.NextMarker) ∧
      (∀ c ∈ azblob.callsFor {} "" {} [azblob.demoPage1, azblob.demoPage2],
        c.o.Prefix = "") ∧
      2 = azblob.pagesConsumed (azblob.demoStorage (azblob.scriptedBucket
          [.ok azblob.demoPage1, .ok azblob.demoPage2] (.error (Err.new ""))))
          (azblob.callsFor {} "" {} [azblob.demoPage1, azblob.demoPage2]) +
        (if last.isOk then 0 else 1)) :=
  ⟨(List_requests_follow_the_markers.1 kodo.demoHelpers
      (kodo.demoStorage (kodo.scriptedBucket
        [.ok kodo.demoPage1, .ok kodo.demoPage2] (.error (Err.new "")))) "" [] 2
      ⟨none, _, kodo.callsFor (kodo.demoStorage (kodo.scriptedBucket
        [.ok kodo.demoPage1, .ok kodo.demoPage2] (.error (Err.new "")))) "" ""
          [kodo.demoPage1, kodo.demoPage2]⟩ rfl).2 {} rfl,
    (List_requests_follow_the_markers.2 azblob.demoHelpers
      (azblob.demoStorage (azblob.scriptedBucket
        [.ok azblob.demoPage1, .ok azblob.demoPage2] (.error (Err.new "")))) "" [] 2
      ⟨none, _, azblob.callsFor {} "" {} [azblob.demoPage1, azblob.demoPage2]⟩ rfl).2 {} rfl⟩

/-- C16, the counterexample: when the first page request fails, `List` has
sent one request and consumed no page, so the number of requests is not the
number of pages consumed. -/
theorem List_failed_request_has_no_page :
    (∃ r, (kodo.demoStorage (kodo.scriptedBucket [.error (Err.new "backend")]
          (.error (Err.new "")))).List kodo.demoHelpers "" [] 1 = some r ∧
        r.calls.length = 1 ∧
        kodo.pagesConsumed (kodo.demoStorage (kodo.scriptedBucket
          [.error (Err.new "backend")] (.error (Err.new "")))) r.calls = 0 ∧
        r.calls.length ≠ kodo.pagesConsumed (kodo.demoStorage (kodo.scriptedBucket
          [.error (Err.new "backend")] (.error (Err.new "")))) r.calls) ∧
    (∃ r, (azblob.demoStorage (azblob.scriptedBucket [.error (Err.new "backend")]
          (.error (Err.new "")))).List azblob.demoHelpers "" [] 1 = some r ∧
        r.calls.length = 1 ∧
        azblob.pagesConsumed (azblob.demoStorage (azblob.scriptedBucket
          [.error (Err.new "backend")] (.error (Err.new "")))) r.calls = 0 ∧
        r.calls.length ≠ azblob.pagesConsumed (azblob.demoStorage (azblob.scriptedBucket
          [.error (Err.new "backend")] (.error (Err.new "")))) r.calls) :=
  ⟨⟨_, rfl, rfl, rfl, by decide⟩, ⟨_, rfl, rfl, rfl, by decide⟩⟩

/-! ## The fields of listed and stat objects -/

/-- C11 (the code differs): `List` of `kodo` builds its objects without the
field `ID`, which stays empty: for the entry with key `a`, size 3 and put time
7 the visitor gets an object with `ID` empty, `Name` `a`, `Size` 3 and
`UpdatedAt` 7, where `List` of `azblob` delivers `ID` `a` for the same entry.
Whatever the entry, an object that `List` of `kodo` builds has an empty `ID`,
the `Name`, `Size` and `UpdatedAt` of the entry; an object that `List` of
`azblob` builds has all four fields of the entry. -/
theorem List_of_kodo_leaves_ID_empty :
    ((kodo.demoStorage (kodo.scriptedBucket
        [.ok { entries := [{ Key := "a", Fsize := 3, PutTime := 7 }], nextMarker := "" }]
        (.error (Err.new "")))).List kodo.demoHelpers "" [] 1).map
        (fun r => r.visited.map (fun o => (o.ID, o.Name, o.Size, o.UpdatedAt))) =
      some [("", "a", 3, 7)] ∧
    ((azblob.demoStorage (azblob.scriptedBucket
        [.ok { Segment := ⟨[{ Name := "a", Properties :=
                { AccessTier := "Hot", ContentLength := 3, LastModified := 7 } }]⟩,
               NextMarker := ⟨some ""⟩ }] (.error (Err.new "")))).List
        azblob.demoHelpers "" [] 1).map
        (fun r => r.visited.map (fun o => (o.ID, o.Name, o.Size, o.UpdatedAt))) =
      some [("a", "a", 3, 7)] ∧
    (∀ (h : kodo.Helpers) (s : kodo.Storage) (path : String) (v : kodo.ListItem),
      match s.listObject h path v with
      | .ok o => o.ID = "" ∧ o.Name = h.getRelPath s v.Key ∧ o.Size = v.Fsize ∧
          o.UpdatedAt = h.convertUnixTimestampToTime v.PutTime
      | .error _ => True) ∧
    (∀ (h : azblob.Helpers) (s : azblob.Storage) (path : String) (v : azblob.BlobItem),
      match s.listObject h path v with
      | .ok o => o.ID = v.Name ∧ o.Name = h.getRelPath s v.Name ∧
          o.Size = v.Properties.ContentLength ∧ o.UpdatedAt = v.Properties.LastModified
      | .error _ => True) := by
  refine ⟨by decide, by decide, ?_, ?_⟩
  · intro h s path v
    unfold kodo.Storage.listObject
    cases kodo.formatStorageClass h v.Kind <;> simp [types.Object.SetStorageClass,
      types.Object.SetETag, types.Object.SetContentType]
  · intro h s path v
    unfold azblob.Storage.listObject
    cases azblob.formatStorageClass h v.Properties.AccessTier <;>
      simp [types.Object.SetStorageClass, types.Object.SetContentMD5,
        types.Object.SetContentType]

/-- C12: for every path for which the stat call of the backend succeeds and
reports a class `c` of the mapping table, `Stat` returns a nil error and an
Object with type `file`, `Name` the path, `ID` the backend-absolute path,
`Size` the length the backend reported, and a storage class that is present
and equal to `c`. Holds for `kodo` and for `azblob`. -/
theorem Stat_returns_the_file_object :
    (∀ (h : kodo.Helpers) (s : kodo.Storage) (path : String) (pairs : types.Pairs)
        (fi : kodo.FileInfo) (c : storageclass.StorageClass),
        s.bucket.Stat s.name (h.getAbsPath s path) = .ok fi →
        h.storageClassTable fi.Kind = some c →
        ∃ o, s.Stat h path pairs = (some o, none) ∧
          o.Kind = types.ObjectTypeFile ∧ o.Name = path ∧ o.ID = h.getAbsPath s path ∧
          o.Size = fi.Fsize ∧ o.ObjectMeta.GetStorageClass = (c, true)) ∧
    (∀ (h : azblob.Helpers) (s : azblob.Storage) (path : String) (pairs : types.Pairs)
        (opt : azblob.pairStorageStat) (output : azblob.BlobGetPropertiesResponse)
        (c : storageclass.StorageClass),
        h.parseStoragePairStat pairs = .ok opt →
        s.bucket.GetProperties (h.getAbsPath s path) opt.Context = .ok output →
        h.storageClassTable output.AccessTier = some c →
        ∃ o, s.Stat h path pairs = (some o, none) ∧
          o.Kind = types.ObjectTypeFile ∧ o.Name = path ∧ o.ID = h.getAbsPath s path ∧
          o.Size = output.ContentLength ∧ o.ObjectMeta.GetStorageClass = (c, true)) := by
  constructor
  · intro h s path pairs fi c hstat hc
    simp only [kodo.Storage.Stat, hstat, kodo.formatStorageClass, hc]
    refine ⟨_, rfl, rfl, rfl, rfl, rfl, ?_⟩
    simp [types.Object.SetStorageClass, metadata.ObjectMeta.SetStorageClass,
      metadata.ObjectMeta.GetStorageClass, AList.lookup_insert]
  · intro h s path pairs opt output c hparse hstat hc
    simp only [azblob.Storage.Stat, hparse, hstat, azblob.formatStorageClass, hc]
    refine ⟨_, rfl, rfl, rfl, rfl, rfl, ?_⟩
    simp [types.Object.SetStorageClass, metadata.ObjectMeta.SetStorageClass,
      metadata.ObjectMeta.GetStorageClass, AList.lookup_insert]

/-- The example of C12: the file `test_src` of length 100, of class `0`
(kodo) and of tier `Hot` (azblob). -/
theorem Stat_returns_the_file_object_witness :
    (∃ o, (kodo.demoStorage (kodo.scriptedBucket [] (.ok { Fsize := 100 }))).Stat
        kodo.demoHelpers "test_src" [] = (some o, none) ∧
      o.Kind = types.ObjectTypeFile ∧ o.Name = "test_src" ∧ o.ID = "test_src" ∧
      o.Size = 100 ∧ o.ObjectMeta.GetStorageClass = (.Hot, true)) ∧
    (∃ o, (azblob.demoStorage (azblob.scriptedBucket []
        (.ok { ContentLength := 100, AccessTier := "Hot" }))).Stat
        azblob.demoHelpers "test_src" [] = (some o, none) ∧
      o.Kind = types.ObjectTypeFile ∧ o.Name = "test_src" ∧ o.ID = "test_src" ∧
      o.Size = 100 ∧ o.ObjectMeta.GetStorageClass = (.Hot, true)) :=
  ⟨Stat_returns_the_file_object.1 kodo.demoHelpers _ "test_src" [] { Fsize := 100 } .Hot
      rfl rfl,
    Stat_returns_the_file_object.2 azblob.demoHelpers _ "test_src" [] {}
      { ContentLength := 100, AccessTier := "Hot" } .Hot rfl rfl rfl⟩

/-! ## `StorageMeta`, `Metadata` and `Init`: the properties -/

/-- C13, as amended: for every StorageMeta `m` whose attribute map is
allocated and every string `v`, `SetLocation(v)` returns a StorageMeta on
which `GetLocation` yields `(v, true)`, whatever the map held under the
location key before (so the last of two writes wins), and whose `Name` and
`WorkDir` are those of `m`; on a StorageMeta whose map is nil `SetLocation`
panics; on a fresh StorageMeta, also after its `Name` and `WorkDir` were
assigned, `GetLocation` yields `("", false)`. -/
theorem SetLocation_then_GetLocation :
    (∀ (m : metadata.StorageMeta) (bag : metadata.Bag) (v : String), m.m = some bag →
      ∃ m', m.SetLocation v = some m' ∧ m'.GetLocation = some (v, true) ∧
        m'.Name = m.Name ∧ m'.WorkDir = m.WorkDir) ∧
    (∀ (m : metadata.StorageMeta) (bag : metadata.Bag) (v₁ v₂ : String), m.m = some bag →
      ∃ m₁ m₂, m.SetLocation v₁ = some m₁ ∧ m₁.SetLocation v₂ = some m₂ ∧
        m₂.GetLocation = some (v₂, true) ∧ m₂.Name = m.Name ∧ m₂.WorkDir = m.WorkDir) ∧
    (∀ (m : metadata.StorageMeta) (v : String), m.m = none → m.SetLocation v = none) ∧
    (∀ (name workDir : String),
      ({ metadata.NewStorageMeta with Name := name, WorkDir := workDir } :
        metadata.StorageMeta).GetLocation = some ("", false)) := by
  have key : ∀ (m : metadata.StorageMeta) (bag : metadata.Bag) (v : String), m.m = some bag →
      m.SetLocation v =
          some { m with m := some (bag.insert metadata.StorageMetaLocation (.string v)) } ∧
        ({ m with m := some (bag.insert metadata.StorageMetaLocation (.string v)) } :
          metadata.StorageMeta).GetLocation = some (v, true) := by
    intro m bag v hm
    constructor
    · simp [metadata.StorageMeta.SetLocation, hm]
    · simp [metadata.StorageMeta.GetLocation, metadata.StorageMeta.entry,
        AList.lookup_insert]
  refine ⟨fun m bag v hm => ⟨_, (key m bag v hm).1, (key m bag v hm).2, rfl, rfl⟩,
    fun m bag v₁ v₂ hm => ?_, fun m v hm => ?_, fun name workDir => ?_⟩
  · have h2 := key { m with m := some (bag.insert metadata.StorageMetaLocation (.string v₁)) }
      (bag.insert metadata.StorageMetaLocation (.string v₁)) v₂ rfl
    exact ⟨_, _, (key m bag v₁ hm).1, h2.1, h2.2, rfl, rfl⟩
  · simp [metadata.StorageMeta.SetLocation, hm]
  · simp [metadata.StorageMeta.GetLocation, metadata.StorageMeta.entry,
      metadata.NewStorageMeta]

/-- The example of C13, as amended: `SetLocation("zone")` on a fresh
StorageMeta named `b`, and `SetLocation("zone")` after `SetLocation("old")`. -/
theorem SetLocation_then_GetLocation_witness :
    (∃ m', ({ metadata.NewStorageMeta with Name := "b" } :
          metadata.StorageMeta).SetLocation "zone" = some m' ∧
        m'.GetLocation = some ("zone", true) ∧ m'.Name = "b" ∧ m'.WorkDir = "") ∧
    (∃ m₁ m₂, ({ metadata.NewStorageMeta with Name := "b" } :
          metadata.StorageMeta).SetLocation "old" = some m₁ ∧
        m₁.SetLocation "zone" = some m₂ ∧ m₂.GetLocation = some ("zone", true) ∧
        m₂.Name = "b" ∧ m₂.WorkDir = "") ∧
    ({ Name := "b" } : metadata.StorageMeta).SetLocation "zone" = none :=
  ⟨SetLocation_then_GetLocation.1 { metadata.NewStorageMeta with Name := "b" } ∅ "zone" rfl,
    SetLocation_then_GetLocation.2.1 { metadata.NewStorageMeta with Name := "b" } ∅
      "old" "zone" rfl,
    SetLocation_then_GetLocation.2.2.1 { Name := "b" } "zone" rfl⟩

/-- C13, the counterexample: on the zero value `StorageMeta{}`, whose map is
nil, `SetLocation("zone")` panics: it returns no StorageMeta on which
`GetLocation` could yield `("zone", true)`. -/
theorem SetLocation_panics_on_zero_value :
    ({} : metadata.StorageMeta).SetLocation "zone" = none ∧
    ¬ ∃ m', ({} : metadata.StorageMeta).SetLocation "zone" = some m' ∧
      m'.GetLocation = some ("zone", true) := by
  refine ⟨rfl, ?_⟩
  rintro ⟨m', h, _⟩
  simp [metadata.StorageMeta.SetLocation] at h

/-- C14: for every StorageMeta whose map holds no location (a nil map holds
none) or a location stored by `SetLocation` (a string), either `GetLocation`
reports the location absent and `MustGetLocation` panics, or `GetLocation`
reports a string as present and `MustGetLocation` returns that string; so
`MustGetLocation` panics exactly when `GetLocation` reports the location
absent. -/
theorem MustGetLocation_agrees_with_GetLocation (m : metadata.StorageMeta)
    (hm : m.entry metadata.StorageMetaLocation = none ∨
      ∃ v, m.entry metadata.StorageMetaLocation = some (metadata.Value.string v)) :
    ((m.GetLocation = some ("", false) ∧ m.MustGetLocation = none) ∨
      (∃ v, m.GetLocation = some (v, true) ∧ m.MustGetLocation = some v)) ∧
    (m.MustGetLocation = none ↔ ∃ v, m.GetLocation = some (v, false)) := by
  rcases hm with hm | ⟨v, hm⟩
  · simp [metadata.StorageMeta.GetLocation, metadata.StorageMeta.MustGetLocation, hm]
  · simp [metadata.StorageMeta.GetLocation, metadata.StorageMeta.MustGetLocation, hm]

/-- The example of C14: a fresh StorageMeta, and a StorageMeta whose map holds
the location `zone`, as `SetLocation("zone")` leaves it. -/
theorem MustGetLocation_agrees_with_GetLocation_witness :
    (((metadata.NewStorageMeta.GetLocation = some ("", false) ∧
          metadata.NewStorageMeta.MustGetLocation = none) ∨
        (∃ v, metadata.NewStorageMeta.GetLocation = some (v, true) ∧
          metadata.NewStorageMeta.MustGetLocation = some v)) ∧
      (metadata.NewStorageMeta.MustGetLocation = none ↔
        ∃ v, metadata.NewStorageMeta.GetLocation = some (v, false))) ∧
    (((({ m := some (AList.singleton metadata.StorageMetaLocation (.string "zone")) } :
            metadata.StorageMeta).GetLocation = some ("", false) ∧
          ({ m := some (AList.singleton metadata.StorageMetaLocation (.string "zone")) } :
            metadata.StorageMeta).MustGetLocation = none) ∨
        (∃ v, ({ m := some (AList.singleton metadata.StorageMetaLocation (.string "zone")) } :
            metadata.StorageMeta).GetLocation = some (v, true) ∧
          ({ m := some (AList.singleton metadata.StorageMetaLocation (.string "zone")) } :
            metadata.StorageMeta).MustGetLocation = some v)) ∧
      (({ m := some (AList.singleton metadata.StorageMetaLocation (.string "zone")) } :
            metadata.StorageMeta).MustGetLocation = none ↔
        ∃ v, ({ m := some (AList.singleton metadata.StorageMetaLocation (.string "zone")) } :
            metadata.StorageMeta).GetLocation = some (v, false))) ∧
    metadata.NewStorageMeta.SetLocation "zone" =
      some { m := some (AList.singleton metadata.StorageMetaLocation (.string "zone")) } :=
  ⟨MustGetLocation_agrees_with_GetLocation metadata.NewStorageMeta (Or.inl rfl),
    MustGetLocation_agrees_with_GetLocation
      { m := some (AList.singleton metadata.StorageMetaLocation (.string "zone")) }
      (Or.inr ⟨"zone", rfl⟩),
    rfl⟩

/-- C15: for every client and every list of options, `Metadata` returns a nil
error and a StorageMeta whose `Name` is the container name of the client and
whose `WorkDir` is its work directory, and it leaves the client as it was.
Holds for `kodo` and for `azblob`. -/
theorem Metadata_reports_name_and_workDir :
    (∀ (s : kodo.Storage) (pairs : types.Pairs),
      (s.Metadata pairs).1.2 = none ∧ (s.Metadata pairs).1.1.Name = s.name ∧
      (s.Metadata pairs).1.1.WorkDir = s.workDir ∧ (s.Metadata pairs).2 = s) ∧
    (∀ (s : azblob.Storage) (pairs : types.Pairs),
      (s.Metadata pairs).1.2 = none ∧ (s.Metadata pairs).1.1.Name = s.name ∧
      (s.Metadata pairs).1.1.WorkDir = s.workDir ∧ (s.Metadata pairs).2 = s) :=
  ⟨fun _ _ => ⟨rfl, rfl, rfl, rfl⟩, fun _ _ => ⟨rfl, rfl, rfl, rfl⟩⟩

/-! ## `Init`: the work directory -/

theorem strings.TrimLeft_slash_data (w : String) :
    (strings.TrimLeft w "/").data = w.data.dropWhile (fun c => c == '/') := by
  have hp : (fun c : Char => ("/" : String).data.contains c) = (fun c => c == '/') := by
    funext c
    cases hc : c == '/' <;> simp [List.contains, List.elem, hc]
  simp only [strings.TrimLeft, hp]

/-- The string `strings.TrimLeft(w, "/")` does not start with `/`. -/
theorem strings.TrimLeft_slash_no_leading (w rest : String) :
    strings.TrimLeft w "/" ≠ "/" ++ rest := by
  intro heq
  have hd := congrArg String.data heq
  rw [strings.TrimLeft_slash_data, String.data_append] at hd
  have hh := List.head?_dropWhile_not (fun c => c == '/') w.data
  rw [hd] at hh
  simp at hh

/-- The string `w` is some number of `/` followed by
`strings.TrimLeft(w, "/")`. -/
theorem strings.TrimLeft_slash_decompose (w : String) :
    ∃ k, w = String.mk (List.replicate k '/') ++ strings.TrimLeft w "/" := by
  refine ⟨(w.data.takeWhile (fun c => c == '/')).length, String.ext ?_⟩
  rw [String.data_append, strings.TrimLeft_slash_data]
  have ht : w.data.takeWhile (fun c => c == '/') =
      List.replicate (w.data.takeWhile (fun c => c == '/')).length '/' := by
    apply List.eq_replicate_iff.mpr
    refine ⟨rfl, fun c hc => ?_⟩
    simpa using List.mem_takeWhile_imp hc
  show w.data = List.replicate _ '/' ++ _
  rw [← ht, List.takeWhile_append_dropWhile]

/-- C17: for every client and option list: if the options parse and hold a
WorkDir `w`, `Init` returns nil and changes the client in its work directory
only, which becomes `w` without its leading `/` characters (it does not start
with `/`, and `w` is some number of `/` followed by it); if the options parse
without a WorkDir, `Init` returns nil and the client is unchanged; if the
options do not parse, `Init` returns an error that wraps the parse error and
the client is unchanged. Holds for `kodo` and for `azblob`. -/
theorem Init_sets_the_trimmed_work_directory :
    (∀ (parse : types.Pairs → Except Err kodo.pairStorageInit) (s : kodo.Storage)
        (pairs : types.Pairs),
      (∀ opt, parse pairs = .ok opt → opt.HasWorkDir = true →
        s.Init parse pairs =
          (none, { s with workDir := strings.TrimLeft opt.WorkDir "/" }) ∧
        (∀ rest, (s.Init parse pairs).2.workDir ≠ "/" ++ rest) ∧
        ∃ k, opt.WorkDir =
          String.mk (List.replicate k '/') ++ (s.Init parse pairs).2.workDir) ∧
      (∀ opt, parse pairs = .ok opt → opt.HasWorkDir = false →
        s.Init parse pairs = (none, s)) ∧
      (∀ err, parse pairs = .error err →
        ∃ e, s.Init parse pairs = (some e, s) ∧ e.Is err = true)) ∧
    (∀ (parse : types.Pairs → Except Err azblob.pairStorageInit) (s : azblob.Storage)
        (pairs : types.Pairs),
      (∀ opt, parse pairs = .ok opt → opt.HasWorkDir = true →
        s.Init parse pairs =
          (none, { s with workDir := strings.TrimLeft opt.WorkDir "/" }) ∧
        (∀ rest, (s.Init parse pairs).2.workDir ≠ "/" ++ rest) ∧
        ∃ k, opt.WorkDir =
          String.mk (List.replicate k '/') ++ (s.Init parse pairs).2.workDir) ∧
      (∀ opt, parse pairs = .ok opt → opt.HasWorkDir = false →
        s.Init parse pairs = (none, s)) ∧
      (∀ err, parse pairs = .error err →
        ∃ e, s.Init parse pairs = (some e, s) ∧ e.Is err = true)) := by
  constructor
  · intro parse s pairs
    refine ⟨fun opt hp hw => ?_, fun opt hp hw => ?_, fun err hp => ?_⟩
    · have hi : s.Init parse pairs =
          (none, { s with workDir := strings.TrimLeft opt.WorkDir "/" }) := by
        simp [kodo.Storage.Init, hp, hw]
      rw [hi]
      exact ⟨rfl, strings.TrimLeft_slash_no_leading _, strings.TrimLeft_slash_decompose _⟩
    · simp [kodo.Storage.Init, hp, hw]
    · exact ⟨fmt.Errorf (s.String ++ " Init: ") err, by simp only [kodo.Storage.Init, hp],
        fmt.Errorf_Is _ _⟩
  · intro parse s pairs
    refine ⟨fun opt hp hw => ?_, fun opt hp hw => ?_, fun err hp => ?_⟩
    · have hi : s.Init parse pairs =
          (none, { s with workDir := strings.TrimLeft opt.WorkDir "/" }) := by
        simp [azblob.Storage.Init, hp, hw]
      rw [hi]
      exact ⟨rfl, strings.TrimLeft_slash_no_leading _, strings.TrimLeft_slash_decompose _⟩
    · simp [azblob.Storage.Init, hp, hw]
    · exact ⟨fmt.Errorf (s.String ++ " Init: ") err, by simp only [azblob.Storage.Init, hp],
        fmt.Errorf_Is _ _⟩

/-- The example of C17: the WorkDir `//data/` is stored as `data/`; options
that do not parse leave the client as it was. -/
theorem Init_sets_the_trimmed_work_directory_witness :
    (((kodo.demoStorage (kodo.scriptedBucket [] (.error (Err.new "")))).Init
          (fun _ => .ok ⟨true, "//data/"⟩) []).2.workDir = "data/" ∧
      (∃ e, (kodo.demoStorage (kodo.scriptedBucket [] (.error (Err.new "")))).Init
          (fun _ => .error (Err.new "bad option")) [] =
            (some e, kodo.demoStorage (kodo.scriptedBucket [] (.error (Err.new "")))) ∧
        e.Is (Err.new "bad option") = true)) ∧
    (((azblob.demoStorage (azblob.scriptedBucket [] (.error (Err.new "")))).Init
          (fun _ => .ok ⟨true, "//data/"⟩) []).2.workDir = "data/" ∧
      (∃ e, (azblob.demoStorage (azblob.scriptedBucket [] (.error (Err.new "")))).Init
          (fun _ => .error (Err.new "bad option")) [] =
            (some e, azblob.demoStorage (azblob.scriptedBucket [] (.error (Err.new "")))) ∧
        e.Is (Err.new "bad option") = true)) :=
  ⟨⟨congrArg (fun p => p.2.workDir)
        ((Init_sets_the_trimmed_work_directory.1 (fun _ => .ok ⟨true, "//data/"⟩)
          (kodo.demoStorage (kodo.scriptedBucket [] (.error (Err.new "")))) []).1
          ⟨true, "//data/"⟩ rfl rfl).1,
      (Init_sets_the_trimmed_work_directory.1 (fun _ => .error (Err.new "bad option"))
        (kodo.demoStorage (kodo.scriptedBucket [] (.error (Err.new "")))) []).2.2
        (Err.new "bad option") rfl⟩,
    ⟨congrArg (fun p => p.2.workDir)
        ((Init_sets_the_trimmed_work_directory.2 (fun _ => .ok ⟨true, "//data/"⟩)
          (azblob.demoStorage (azblob.scriptedBucket [] (.error (Err.new "")))) []).1
          ⟨true, "//data/"⟩ rfl rfl).1,
      (Init_sets_the_trimmed_work_directory.2 (fun _ => .error (Err.new "bad option"))
        (azblob.demoStorage (azblob.scriptedBucket [] (.error (Err.new "")))) []).2.2
        (Err.new "bad option") rfl⟩⟩
